import Mathlib

/-!
Verification development for the EtherDFS resident core (etherdfs.c).

The C sources are shallowly embedded: frames and buffers are lists of
byte values (naturals, little endian words), the packet-driver receive
callback is a pure transition on the signed length sentinel, and the
transaction engine `sendquery` is a pure function over the sequence of
frames observed during each retry window.  Machine arithmetic is
modelled with explicit reductions modulo 2^8, 2^16 and 2^32.
-/

set_option maxRecDepth 10000

namespace EtherDFS

/-! ## Byte and word primitives (little endian, as on the 8086 host) -/

/-- Read byte `i` of a buffer; memory past the end of the modelled
region reads as zero (the buffers in the C code are zero initialised). -/
def getByte (f : List Nat) (i : Nat) : Nat := f.getD i 0

/-- Read the little-endian 16-bit word whose low byte sits at offset `i`,
as the C code does with a cast to a word pointer. -/
def getWord (f : List Nat) (i : Nat) : Nat := getByte f i + 256 * getByte f (i + 1)

/-- Read the little-endian 32-bit doubleword at byte offset `i`. -/
def getDword (f : List Nat) (i : Nat) : Nat := getWord f i + 65536 * getWord f (i + 2)

/-- Write byte `i` of a buffer. -/
def setByte (f : List Nat) (i v : Nat) : List Nat := f.set i v

/-- Write a 16-bit word at byte offset `i`, low byte first. -/
def setWord (f : List Nat) (i v : Nat) : List Nat :=
  setByte (setByte f i (v % 256)) (i + 1) (v / 256 % 256)

/-- The bytes at offsets `a .. b-1` of a buffer, as the C code reads them
through a pointer: `b - a` consecutive byte loads starting at `a`. -/
def byteRange (f : List Nat) (a b : Nat) : List Nat :=
  (List.range (b - a)).map fun i => getByte f (a + i)

/-- Test bit 7 of a byte, mirroring `x & 128` in the C code. -/
def bit7 (b : Nat) : Bool := b / 128 % 2 == 1

/-! ## BSD rotating checksum (`bsdsum`, etherdfs.c lines 84-101)

The assembly loop keeps the 16-bit accumulator in BX and executes
`ror bx, 1` followed by `add bx, ax` for every byte loaded into AL. -/

/-- One-position right rotation of a 16-bit value. -/
def ror16 (x : Nat) : Nat := x / 2 + x % 2 * 32768

/-- `bsdsum`: 16-bit rotating checksum of a list of bytes, accumulator
starting at zero; every step rotates right by one and adds the byte. -/
def bsdsum (bytes : List Nat) : Nat :=
  bytes.foldl (fun acc b => (ror16 acc + b) % 65536) 0

/-! ## C string helpers (`mystrlen`, `len_if_no_wildcards`) -/

/-- `mystrlen`: length of a NUL-terminated string; the end of the list
acts as the terminator. -/
def mystrlen : List Nat → Nat
  | [] => 0
  | c :: rest => if c == 0 then 0 else 1 + mystrlen rest

/-- `len_if_no_wildcards`: returns -1 if the string contains a `?` (63)
or `*` (42) wildcard before the terminator, otherwise its length. -/
def lenIfNoWildcards : List Nat → Int
  | [] => 0
  | c :: rest =>
    if c == 0 then 0
    else if c == 63 || c == 42 then -1
    else
      let l := lenIfNoWildcards rest
      if l < 0 then -1 else l + 1

/-! ## Packet-driver receive callback (`pktdrv_recv`, lines 112-163)

The sentinel `glob_pktdrv_recvbufflen` is a signed 16-bit word.  On the
first call (AX = 0) the driver offers a frame of CX bytes: the callback
refuses when CX is above FRAMESIZE (1090) with an unsigned compare, or
when the sentinel is strictly positive with a signed compare (`jg`);
otherwise it stores CX negated in the sentinel and hands out the buffer.
On the second call it negates the sentinel again. -/

/-- First callback invocation: returns the new sentinel value and
whether the buffer was handed to the driver. -/
def pktdrvRecvFirst (sentinel : Int) (cx : Nat) : Int × Bool :=
  if 1090 < cx then (sentinel, false)
  else if 0 < sentinel then (sentinel, false)
  else (-(cx : Int), true)

/-- Second callback invocation: the sentinel is negated
(`neg glob_pktdrv_recvbufflen`). -/
def pktdrvRecvSecond (sentinel : Int) : Int := -sentinel

/-- The value the foreground consumer stores into the sentinel at
etherdfs.c line 371 after the length checks pass: the frame length
field, a positive quantity. -/
def consumerTrimValue (f : List Nat) : Int := (getWord f 52 : Int)

/-! ## Transaction engine `sendquery` (lines 281-396)

State carried across transactions: the local MAC, the peer MAC, the
drive translation table and the send buffer (whose byte 56 holds the
protocol version and the checksum-enable bit), plus the sequence byte.
The unreliable link is abstracted as, for each retry window, the list
of frames that arrive during that window, in order; each frame is the
byte content of the receive buffer, so its observed length (the value
of the positive sentinel) is the length of the list. -/

structure QState where
  lmac : List Nat
  rmac : List Nat
  ldrv : List Nat
  sndbuff : List Nat
  seq : Nat
  deriving Repr, DecidableEq

/-- The reply data handed back through the two output pointers:
`*replyptr` (the payload past the 60-byte header, up to the length
field) and `*replyax` (the word at offset 58). -/
structure QReply where
  payload : List Nat
  ax : Nat
  deriving Repr, DecidableEq

/-- Result of one `sendquery` call.  `accepted` records the validated
frame (if any); `outputs` is `none` when the two output pointers were
never assigned. -/
structure QResult where
  ret : Nat
  transmits : Nat
  seqAfter : Nat
  rmacAfter : List Nat
  accepted : Option (List Nat)
  outputs : Option QReply
  deriving Repr, DecidableEq

/-- MAC validation loop (lines 355-358): all six destination bytes must
equal the local MAC, and unless `updatermac` is set, all six source
bytes must equal the stored peer MAC. -/
def macOK (st : QState) (upd : Bool) (f : List Nat) : Bool :=
  (List.range 6).all fun i =>
    (getByte f i == getByte st.lmac i) &&
    (upd || (getByte f (i + 6) == getByte st.rmac i))

/-- Frame validation (lines 352-383), in the order of the C code:
minimum observed length, MAC checks, ethertype 0xF5ED, sequence echo,
length field at most the observed length and at least 60, and, when
byte 56 of the send buffer has bit 7 set, the rotating checksum of
bytes 56 .. lengthfield-1 must equal the word at offset 54. -/
def frameOK (st : QState) (upd : Bool) (f : List Nat) : Bool :=
  (60 ≤ f.length) &&
  macOK st upd f &&
  (getWord f 12 == 62957) &&
  (getByte f 57 == st.seq) &&
  (getWord f 52 ≤ f.length) &&
  (60 ≤ getWord f 52) &&
  (!(bit7 (getByte st.sndbuff 56)) || (bsdsum (byteRange f 56 (getWord f 52)) == getWord f 54))

/-- Scan the frames arriving within one retry window; invalid frames
reset the sentinel to zero and the wait continues (label
`ignoreframe`), the first valid frame is accepted. -/
def scanWindow (st : QState) (upd : Bool) : List (List Nat) → Option (List Nat)
  | [] => none
  | f :: rest => if frameOK st upd f then some f else scanWindow st upd rest

/-- Fill in the per-transaction bytes of the send buffer (lines
301-308): frame length word at 52, sequence at 57, drive at 58, query
code at 59, and, when the checksum flag (bit 7 of byte 56) is on, the
rotating checksum of bytes 56 .. flen-1 stored at 54. -/
def buildSnd (b : List Nat) (flen seq drive query : Nat) : List Nat :=
  let b1 := setByte (setByte (setByte (setWord b 52 flen) 57 seq) 58 drive) 59 query
  if bit7 (getByte b1 56) then setWord b1 54 (bsdsum (byteRange b1 56 flen)) else b1

/-- The engine state right after the sequence increment and the send
buffer update, i.e. the state against which replies are validated. -/
def sendState (st : QState) (query drive bufflen : Nat) : QState :=
  { st with
    seq := (st.seq + 1) % 256,
    sndbuff := buildSnd st.sndbuff (bufflen + 60) ((st.seq + 1) % 256)
                 (st.ldrv.getD drive 0) query }

/-- The retry loop (lines 318-394): up to `n` attempts, each
transmitting the request once and then scanning its window; a validated
frame ends the transaction, otherwise the next attempt begins.  After
the last attempt the error value 0xFFFF is returned. -/
def runAttempts (st : QState) (upd : Bool) :
    Nat → List (List (List Nat)) → Nat → QResult
  | 0, _, tx => ⟨65535, tx, st.seq, st.rmac, none, none⟩
  | n + 1, ws, tx =>
    match scanWindow st upd (ws.headD []) with
    | some f =>
      ⟨getWord f 52 - 60, tx + 1, st.seq,
       if upd then byteRange f 6 12 else st.rmac,
       some f,
       some ⟨byteRange f 60 (getWord f 52), getWord f 58⟩⟩
    | none => runAttempts st upd n ws.tail (tx + 1)

/-- `sendquery` (lines 281-396): reject overlong queries before
touching any state, otherwise bump the sequence number, fill in the
send buffer and run five transmit attempts. -/
def sendquery (st : QState) (query drive bufflen : Nat) (upd : Bool)
    (windows : List (List (List Nat))) : QResult :=
  if 1090 < bufflen + 60 then ⟨0, 0, st.seq, st.rmac, none, none⟩
  else runAttempts (sendState st query drive bufflen) upd 5 windows 0

/-! ## Dispatcher (`process2f`, lines 405-901)

Each `case` of the big switch is embedded as one function.  The
outcome of one `sendquery` call is abstracted as `XR`: a timeout
(return value 0xFFFF), the early over-length rejection (return value 0
with the output pointers left unassigned), or a validated reply
carrying its payload and status word.  `stale` models the value read
through the status pointer when it was never assigned (the local
variable `ax` of `process2f` is uninitialised in that case). -/

/-- Outcome of one `sendquery` call, as seen by a `process2f` case. -/
inductive XR where
  | timeout : XR
  | tooLong : XR
  | reply (payload : List Nat) (ax : Nat) : XR
  deriving Repr, DecidableEq

/-- The return value of `sendquery` for an outcome: 0xFFFF on timeout,
0 on the early over-length rejection, the payload length otherwise. -/
def xret : XR → Nat
  | XR.timeout => 65535
  | XR.tooLong => 0
  | XR.reply p _ => p.length

/-- The value obtained by dereferencing the status pointer: the reply
status when the pointer was assigned, an arbitrary stale value
otherwise. -/
def axOf (q : XR) (stale : Nat) : Nat :=
  match q with
  | XR.reply _ a => a
  | _ => stale

/-- The reply payload (empty for outcomes that assigned no pointer). -/
def payloadOf : XR → List Nat
  | XR.reply p _ => p
  | _ => []

/-- The caller-visible register envelope of `process2f`. -/
structure Regs where
  ax : Nat
  bx : Nat
  cx : Nat
  dx : Nat
  di : Nat
  carry : Bool
  deriving Repr, DecidableEq

/-- `FAILFLAG(x)`: store the error code in AX and set the carry flag. -/
def failflag (r : Regs) (code : Nat) : Regs := { r with ax := code, carry := true }

/-- The fields of a system file table entry touched by the core. -/
structure SFT where
  open_mode : Nat
  handle_count : Nat
  file_attr : Nat
  dev_info_word : Nat
  start_sector : Nat
  file_time : Nat
  file_size : Nat
  file_pos : Nat
  rel_sector : Nat
  abs_sector : Nat
  dir_sector : Nat
  dir_entry_no : Nat
  file_name : List Nat
  deriving Repr, DecidableEq

/-- The path payload sent for a path-bearing operation: the bytes of
fn1 past the two drive-prefix characters, up to the terminator. -/
def pathTail (fn1 : List Nat) : List Nat := byteRange fn1 2 (mystrlen fn1)

/-! ### RMDIR current-directory check (lines 436-439)

The loop walks fn1 until its terminator and bails out to the MKDIR code
at the first character differing from the CDS current path; reaching
the terminator without a mismatch yields the local error 16. -/

/-- The comparison loop of the RMDIR case: character-wise walk of fn1
against the CDS current path, the CDS string being read through the
same index (memory past its end reads as the terminator). -/
def rmdirIsCurdir : List Nat → List Nat → Bool
  | [], _ => true
  | c :: rest, cds =>
    if c == 0 then true
    else if c == getByte cds 0 then rmdirIsCurdir rest cds.tail
    else false

/-- `a` is a list prefix of `b`. -/
def strPre (a b : List Nat) : Prop := ∃ t, a ++ t = b

/-! ### Directory and simple path operations -/

/-- MKDIR (lines 442-459): reject fn1 shorter than two bytes with
error 3, otherwise one exchange; return value 0 means success and the
status word is propagated, any other return value maps to error 2.
The second component counts the `sendquery` calls performed. -/
def mkdirOp (fn1 : List Nat) (r0 : Regs) (q : XR) (stale : Nat) : Regs × Nat :=
  if mystrlen fn1 < 2 then (failflag r0 3, 0)
  else if xret q == 0 then
    let a := axOf q stale
    ({ r0 with ax := a, carry := r0.carry || a != 0 }, 1)
  else (failflag r0 2, 1)

/-- RMDIR (lines 434-441): reject with error 16 when fn1 matches the
current directory, otherwise fall through to the MKDIR code with the
RMDIR query code. -/
def rmdirOp (fn1 cds : List Nat) (r0 : Regs) (q : XR) (stale : Nat) : Regs × Nat :=
  if rmdirIsCurdir fn1 cds then (failflag r0 16, 0)
  else mkdirOp fn1 r0 q stale

/-- CHDIR (lines 460-482): like MKDIR but with error 3 ("path not
found") as the network-failure fallback. -/
def chdirOp (fn1 : List Nat) (r0 : Regs) (q : XR) (stale : Nat) : Regs × Nat :=
  if mystrlen fn1 < 2 then (failflag r0 3, 0)
  else if xret q == 0 then
    let a := axOf q stale
    ({ r0 with ax := a, carry := r0.carry || a != 0 }, 1)
  else (failflag r0 3, 1)

/-- CLSFIL (lines 483-496): decrement the handle count first, then one
exchange; a nonzero status on a zero-length reply is propagated, and a
network failure leaves the registers untouched. -/
def clsfilOp (sft : SFT) (r0 : Regs) (q : XR) (stale : Nat) : Regs × SFT × Nat :=
  let sft' := if 0 < sft.handle_count then { sft with handle_count := sft.handle_count - 1 } else sft
  if xret q == 0 then
    let a := axOf q stale
    (if a != 0 then failflag r0 a else r0, sft', 1)
  else (r0, sft', 1)

/-- SETATTR (lines 615-638): reject fn1 shorter than two bytes with
error 2; a nonzero return value maps to error 2, a nonzero status is
propagated. -/
def setattrOp (fn1 : List Nat) (r0 : Regs) (q : XR) (stale : Nat) : Regs × Nat :=
  if mystrlen fn1 < 2 then (failflag r0 2, 0)
  else if xret q != 0 then (failflag r0 2, 1)
  else if axOf q stale != 0 then (failflag r0 (axOf q stale), 1)
  else (r0, 1)

/-- GETATTR (lines 639-665): reject fn1 shorter than two bytes with
error 2; timeout maps to 2, a reply that is not nine bytes long or
has a nonzero status propagates the status, otherwise the attribute,
time, date and size are unpacked into the registers. -/
def getattrOp (fn1 : List Nat) (r0 : Regs) (q : XR) (stale : Nat) : Regs × Nat :=
  if mystrlen fn1 < 2 then (failflag r0 2, 0)
  else if xret q == 65535 then (failflag r0 2, 1)
  else if xret q != 9 || axOf q stale != 0 then (failflag r0 (axOf q stale), 1)
  else
    let p := payloadOf q
    ({ r0 with cx := getWord p 0, dx := getWord p 2,
               bx := getWord p 6, di := getWord p 4, ax := getByte p 8 }, 1)

/-- RENAME (lines 666-697): reject a cross-drive rename with error 2,
a short fn1 with 2, a short or wildcarded fn2 with 3; a nonzero return
value maps to 2, a nonzero status is propagated. -/
def renameOp (fn1 fn2 : List Nat) (r0 : Regs) (q : XR) (stale : Nat) : Regs × Nat :=
  if getByte fn1 0 != getByte fn2 0 then (failflag r0 2, 0)
  else if mystrlen fn1 < 2 then (failflag r0 2, 0)
  else if lenIfNoWildcards fn2 < 2 then (failflag r0 3, 0)
  else if xret q != 0 then (failflag r0 2, 1)
  else if axOf q stale != 0 then (failflag r0 (axOf q stale), 1)
  else (r0, 1)

/-- DELETE (lines 698-717): reject fn1 shorter than two bytes with
error 2; timeout maps to 2, then any nonzero return value or status
triggers FAILFLAG with the status word. -/
def deleteOp (fn1 : List Nat) (r0 : Regs) (q : XR) (stale : Nat) : Regs × Nat :=
  if mystrlen fn1 < 2 then (failflag r0 2, 0)
  else if xret q == 65535 then (failflag r0 2, 1)
  else if xret q != 0 || axOf q stale != 0 then (failflag r0 (axOf q stale), 1)
  else (r0, 1)

/-- LOCKFIL (lines 588-600): BL above 1 raises FAILFLAG(2) but does not
stop the exchange; any nonzero return value maps to error 2. -/
def lockfilOp (r0 : Regs) (bl : Nat) (q : XR) (_stale : Nat) : Regs × Nat :=
  let r1 := if 1 < bl then failflag r0 2 else r0
  if xret q != 0 then (failflag r1 2, 1) else (r1, 1)

/-- UNLOCKFIL (lines 601-604): always fails locally with error 2. -/
def unlockfilOp (r0 : Regs) : Regs × Nat := (failflag r0 2, 0)

/-- DISKSPACE (lines 605-614): a six-byte reply unpacks the geometry
into AX, BX, CX and DX, anything else maps to error 2. -/
def diskspaceOp (r0 : Regs) (q : XR) (stale : Nat) : Regs × Nat :=
  if xret q == 6 then
    let p := payloadOf q
    ({ r0 with ax := axOf q stale, bx := getWord p 0,
               cx := getWord p 2, dx := getWord p 4 }, 1)
  else (failflag r0 2, 1)

/-- SKFMEND (lines 872-889): timeout maps to error 2; a reply that is
not four bytes long or carries a nonzero status propagates the status,
otherwise the new position lands in DX:AX. -/
def skfmendOp (r0 : Regs) (q : XR) (stale : Nat) : Regs × Nat :=
  if xret q == 65535 then (failflag r0 2, 1)
  else if axOf q stale != 0 || xret q != 4 then (failflag r0 (axOf q stale), 1)
  else
    let p := payloadOf q
    ({ r0 with ax := getWord p 0, dx := getWord p 2 }, 1)

/-- OPEN, CREATE and SPOPNFIL (lines 718-769): reject wildcards or a
short fn1 with error 3; timeout maps to 2; a reply that is not 25
bytes long or has a nonzero status propagates the status; otherwise
the SFT is populated from the reply (SPOPNFIL also echoes the mode in
CX), the drive is stamped into the device information word and the
high open-mode byte is preserved. -/
def openOp (sub : Nat) (fn1 : List Nat) (drive : Nat) (sft : SFT) (r0 : Regs)
    (q : XR) (stale : Nat) : Regs × SFT × Nat :=
  if lenIfNoWildcards fn1 < 2 then (failflag r0 3, sft, 0)
  else if xret q == 65535 then (failflag r0 2, sft, 1)
  else if xret q != 25 || axOf q stale != 0 then (failflag r0 (axOf q stale), sft, 1)
  else
    let p := payloadOf q
    let r1 := if sub == 46 then { r0 with cx := getWord p 22 } else r0
    (r1,
     { sft with
       file_attr := getByte p 0,
       dev_info_word := 32832 ||| drive,
       start_sector := getWord p 20,
       file_time := getDword p 12,
       file_size := getDword p 16,
       file_pos := 0,
       open_mode := sft.open_mode / 256 * 256 + getByte p 24,
       rel_sector := 65535,
       abs_sector := 65535,
       dir_sector := 0,
       dir_entry_no := 255,
       file_name := byteRange p 1 12 },
     1)

/-- The search continuation record kept in the DTA. -/
structure SDB where
  drv_lett : Nat
  srch_tmpl : List Nat
  srch_attr : Nat
  dir_entry : Nat
  par_clstr : Nat
  deriving Repr, DecidableEq

/-- The 32-byte directory entry record written into the SDA. -/
structure FoundFile where
  fname : List Nat
  fattr : Nat
  time_lstupd : Nat
  date_lstupd : Nat
  start_clstr : Nat
  fsize : Nat
  deriving Repr, DecidableEq

/-- FINDFIRST and FINDNEXT (lines 770-871): a timeout maps to error 2
for FINDFIRST and error 18 for FINDNEXT; a reply that is not 24 bytes
long or has a nonzero status propagates the status; otherwise the found
file record and the DTA continuation tokens are filled in (FINDFIRST
additionally seeds the template, attribute and drive letter). -/
def findOp (isFirst : Bool) (drive : Nat) (fcbFn1 : List Nat) (srchAttr : Nat)
    (dta : SDB) (ff : FoundFile) (r0 : Regs) (q : XR) (stale : Nat) :
    Regs × SDB × FoundFile × Nat :=
  if xret q == 65535 then
    (failflag r0 (if isFirst then 2 else 18), dta, ff, 1)
  else if axOf q stale != 0 || xret q != 24 then
    (failflag r0 (axOf q stale), dta, ff, 1)
  else
    let p := payloadOf q
    let ff' : FoundFile :=
      { fname := byteRange p 1 12, fattr := getByte p 0,
        time_lstupd := getWord p 12, date_lstupd := getWord p 14,
        start_clstr := 0, fsize := getDword p 16 }
    let dta1 := if isFirst then
        { dta with drv_lett := drive ||| 128, srch_tmpl := fcbFn1, srch_attr := srchAttr }
      else dta
    (r0, { dta1 with par_clstr := getWord p 20, dir_entry := getWord p 22 }, ff', 1)

/-! ### READFIL (lines 500-544)

The chunking loop asks for at most FRAMESIZE - 60 = 1030 bytes per
exchange.  `chunklen` and `len` are C `int` values, so the subtraction
`cx - totreadlen` and the comparison `len < chunklen` are signed, while
`totreadlen` is an unsigned short accumulating modulo 2^16.  The trace
lists the outcome of each successive `sendquery` call; an exhausted
trace stands for a call that times out.  The result carries the
registers, the SFT, the number of `sendquery` calls and the total
number of bytes copied into the caller DTA. -/

/-- The `chunklen` computation of the READFIL loop: `cx - totreadlen`
as a signed C `int`, capped at FRAMESIZE - 60 = 1030. -/
def chunkOf (cx tot : Nat) : Int :=
  if (cx : Int) - (tot : Int) < 1030 then (cx : Int) - (tot : Int) else 1030

def readfilLoop (r0 : Regs) (sft : SFT) (stale : Nat) :
    Nat → Nat → Nat → List XR → Regs × SFT × Nat × Nat
  | _, copied, ex, [] => (failflag r0 2, sft, ex + 1, copied)
  | tot, copied, ex, q :: rest =>
    let chunk : Int := chunkOf r0.cx tot
    let len := xret q
    if len == 65535 then (failflag r0 2, sft, ex + 1, copied)
    else if axOf q stale != 0 then (failflag r0 (axOf q stale), sft, ex + 1, copied)
    else
      let tot' := (tot + len) % 65536
      let copied' := copied + len
      if (len : Int) < chunk || tot' == r0.cx then
        ({ r0 with cx := tot' },
         { sft with file_pos := (sft.file_pos + tot') % 4294967296 },
         ex + 1, copied')
      else readfilLoop r0 sft stale tot' copied' (ex + 1) rest

/-- READFIL: reject a write-only file with error 5, return at once on a
zero-byte request, otherwise run the chunking loop. -/
def readfilOp (sft : SFT) (r0 : Regs) (trace : List XR) (stale : Nat) :
    Regs × SFT × Nat × Nat :=
  if sft.open_mode % 2 == 1 then (failflag r0 5, sft, 0, 0)
  else if r0.cx == 0 then (r0, sft, 0, 0)
  else readfilLoop r0 sft stale 0 0 0 trace

/-! ### WRITEFIL (lines 545-587)

A do-while loop: at least one exchange happens even for a zero-byte
request.  Chunks are at most FRAMESIZE - 66 = 1024 bytes;
`bytesleft` and `written` are unsigned shorts.  Each successful
exchange reports the count written in a two-byte reply; the file
position advances by that count, CX tracks the cumulative count, and
the file size is raised to the position when the position passes it.
The result carries the registers, the SFT, the number of `sendquery`
calls, the sum of all reported counts and the number of successful
exchanges. -/

/-- The SFT mutation of one successful WRITEFIL exchange: the file
position advances by the reported count and the file size is raised to
the position when the position passes it. -/
def wfSftUpd (sft : SFT) (len : Nat) : SFT :=
  let pos' := (sft.file_pos + len) % 4294967296
  { sft with file_pos := pos',
             file_size := if sft.file_size < pos' then pos' else sft.file_size }

def writefilLoop (stale : Nat) (r : Regs) (sft : SFT) :
    Nat → Nat → Nat → Nat → Nat → List XR → Regs × SFT × Nat × Nat × Nat
  | _, _, ex, sumw, succ, [] => (failflag r 2, sft, ex + 1, sumw, succ)
  | bytesleft, written, ex, sumw, succ, q :: rest =>
    let chunk := min bytesleft 1024
    if xret q == 65535 then (failflag r 2, sft, ex + 1, sumw, succ)
    else if axOf q stale != 0 || xret q != 2 then
      (failflag r (axOf q stale), sft, ex + 1, sumw, succ)
    else
      let len := getWord (payloadOf q) 0
      let written' := (written + len) % 65536
      let bytesleft' := (bytesleft + 65536 - len % 65536) % 65536
      let r' := { r with cx := written' }
      let sft' := wfSftUpd sft len
      if len != chunk then (r', sft', ex + 1, sumw + len, succ + 1)
      else if 0 < bytesleft' then
        writefilLoop stale r' sft' bytesleft' written' (ex + 1) (sumw + len) (succ + 1) rest
      else (r', sft', ex + 1, sumw + len, succ + 1)

/-- WRITEFIL: reject a read-only file with error 5, otherwise run the
do-while loop starting from `bytesleft = CX`. -/
def writefilOp (sft : SFT) (r0 : Regs) (trace : List XR) (stale : Nat) :
    Regs × SFT × Nat × Nat × Nat :=
  if sft.open_mode % 4 == 0 then (failflag r0 5, sft, 0, 0, 0)
  else writefilLoop stale r0 sft r0.cx 0 0 0 0 trace

/-- A READFIL reply trace is well-sized when every successful reply
carries at most the chunk length requested at its position of the
loop (a peer answers with at most as many bytes as were asked). -/
def lensFit (cx : Nat) : Nat → List XR → Prop
  | _, [] => True
  | tot, XR.reply p a :: rest =>
      p.length ≤ min (cx - tot) 1030 ∧ (a = 0 → lensFit cx (tot + p.length) rest)
  | _, XR.timeout :: _ => True
  | _, XR.tooLong :: _ => True

/-! ## Concrete data used by witnesses and counterexamples -/

/-- A local MAC address for concrete runs. -/
def wLmac : List Nat := [1, 2, 3, 4, 5, 6]

/-- A peer MAC address for concrete runs. -/
def wRmac : List Nat := [9, 8, 7, 6, 5, 4]

/-- A send buffer with the checksum flag off (byte 56 = 0). -/
def wSnd : List Nat := List.replicate 1090 0

/-- A concrete engine state, checksum disabled, sequence byte 0. -/
def wSt : QState := ⟨wLmac, wRmac, List.replicate 26 3, wSnd, 0⟩

/-- A valid 60-byte reply for `wSt` after one sequence increment:
destination = local MAC, source = peer MAC, ethertype ED F5, length
field 60, sequence byte 1. -/
def wFrame : List Nat :=
  wLmac ++ wRmac ++ [237, 245] ++ List.replicate 38 0 ++ [60, 0, 0, 0, 0, 1, 0, 0]

/-- A frame whose length field is 80 while 100 bytes were observed. -/
def wTrimFrame : List Nat := List.replicate 52 0 ++ [80, 0] ++ List.replicate 46 0

/-- An all-zero 60-byte frame; never valid for `wSt` since its
destination MAC differs from the local MAC. -/
def zFrame : List Nat := List.replicate 60 0

/-- A send buffer with the checksum flag on (byte 56 = 128). -/
def wSndCk : List Nat := (List.replicate 1090 0).set 56 128

/-- A concrete engine state with checksumming enabled. -/
def wStCk : QState := ⟨wLmac, wRmac, List.replicate 26 3, wSndCk, 0⟩

/-- A register envelope right after the SUCCESSFLAG prologue. -/
def wRegs : Regs := ⟨0, 0, 0, 0, 0, false⟩

/-- Registers with a pending 10-byte read request in CX. -/
def wRegsCx10 : Regs := ⟨0, 0, 10, 0, 0, false⟩

/-- An SFT open for reading (even open mode), one handle, position 100. -/
def wSft : SFT := ⟨2, 1, 0, 0, 0, 0, 0, 100, 0, 0, 0, 0, []⟩

/-- Search-state record for concrete FINDFIRST/FINDNEXT runs. -/
def wSdb : SDB := ⟨0, [], 0, 0, 0⟩

/-- An empty found-file record for concrete runs. -/
def wFF : FoundFile := ⟨[], 0, 0, 0, 0, 0⟩

/-- An FCB-style all-blank search template. -/
def wFcb : List Nat := List.replicate 11 32

/-- The path `C:\A`. -/
def wFn1 : List Nat := [67, 58, 92, 65]

/-- A CDS current path `C:\B` differing from `wFn1` in the last byte. -/
def wCdsOther : List Nat := [67, 58, 92, 66]

/-- A CDS current path `C:\AB`, of which `wFn1` is a proper prefix. -/
def wCdsLonger : List Nat := [67, 58, 92, 65, 66]

/-! ## Claim C3 -/

/-- C3 counterexample.  The claim states that the receive callback
claims the buffer only when the sentinel is exactly 0 and that the
foreground consumer writes only the value 0.  The code refuses the
buffer only on a *strictly positive* sentinel (signed `jg`), so a first
call arriving while the sentinel is -5 claims the buffer and writes
-10; and the consumer overwrites the positive sentinel with the frame
length field (here 80) at line 371.  Both transitions are outside the
claimed cycle. -/
theorem c3_sentinel_cex :
    pktdrvRecvFirst (-5) 10 = (-10, true) ∧ ((-5 : Int) ≠ 0) ∧
    consumerTrimValue wTrimFrame = 80 ∧ ((80 : Int) ≠ 0) := by
  refine ⟨by decide, by decide, by decide, by decide⟩

/-- C3 (amended): the callback hands out the buffer exactly when the
offered length fits FRAMESIZE and the sentinel is non-positive, in
which case it writes the negated length; otherwise the sentinel is
untouched.  The second call negates the sentinel.  The foreground
writes 0 to release the buffer, and during validation overwrites the
sentinel with the frame length field, a positive value whenever the
length checks passed. -/
theorem c3_sentinel_amended (s : Int) (cx : Nat) (f : List Nat) :
    ((pktdrvRecvFirst s cx).2 = true ↔ cx ≤ 1090 ∧ s ≤ 0) ∧
    ((pktdrvRecvFirst s cx).2 = true → (pktdrvRecvFirst s cx).1 = -(cx : Int)) ∧
    ((pktdrvRecvFirst s cx).2 = false → (pktdrvRecvFirst s cx).1 = s) ∧
    pktdrvRecvSecond s = -s ∧
    (60 ≤ getWord f 52 → 0 < consumerTrimValue f) := by
  unfold pktdrvRecvFirst pktdrvRecvSecond consumerTrimValue
  split
  · refine ⟨by simp; omega, by simp, by simp, rfl, by intro h; exact_mod_cast by omega⟩
  · split
    · refine ⟨by simp; omega, by simp, by simp, rfl, by intro h; exact_mod_cast by omega⟩
    · refine ⟨by simp; omega, by simp, by simp, rfl, by intro h; exact_mod_cast by omega⟩

/-- C3 witness: the amended statement at sentinel 0, length 60, and the
concrete trimmed frame. -/
theorem c3_sentinel_amended_w :
    ((pktdrvRecvFirst 0 60).2 = true ↔ 60 ≤ 1090 ∧ (0 : Int) ≤ 0) ∧
    ((pktdrvRecvFirst 0 60).2 = true → (pktdrvRecvFirst 0 60).1 = -((60 : Nat) : Int)) ∧
    ((pktdrvRecvFirst 0 60).2 = false → (pktdrvRecvFirst 0 60).1 = 0) ∧
    pktdrvRecvSecond 0 = -0 ∧
    (60 ≤ getWord wTrimFrame 52 → 0 < consumerTrimValue wTrimFrame) :=
  c3_sentinel_amended 0 60 wTrimFrame

/-! ## Claim C9 -/

/-- C9 counterexample.  The claim states RMDIR is rejected locally with
status 16 exactly when fn1 equals the current directory path.  The
comparison loop only walks fn1, so any fn1 that is a proper prefix of
the CDS path is also rejected: `C:\A` against current directory
`C:\AB` yields FAILFLAG(16) with no exchange although the paths
differ. -/
theorem c9_rmdir_cex :
    rmdirOp wFn1 wCdsLonger wRegs XR.timeout 0 = (failflag wRegs 16, 0) ∧ wFn1 ≠ wCdsLonger := by
  refine ⟨by decide, by decide⟩

/-- C9 (amended): RMDIR is rejected locally with status 16 exactly when
fn1 is a character-wise prefix of the CDS current-directory buffer
(equality included); for every other path the RMDIR case runs the MKDIR
code with the RMDIR query code. -/
theorem c9_rmdir_amended :
    (∀ fn1 cds : List Nat, (∀ c ∈ fn1, c ≠ 0) →
      (rmdirIsCurdir fn1 cds = true ↔ strPre fn1 cds)) ∧
    (∀ fn1 cds r0 q stale, rmdirIsCurdir fn1 cds = true →
      rmdirOp fn1 cds r0 q stale = (failflag r0 16, 0)) ∧
    (∀ fn1 cds r0 q stale, rmdirIsCurdir fn1 cds = false →
      rmdirOp fn1 cds r0 q stale = mkdirOp fn1 r0 q stale) := by
  refine ⟨?_, ?_, ?_⟩
  · intro fn1
    induction fn1 with
    | nil =>
      intro cds _
      exact ⟨fun _ => ⟨cds, rfl⟩, fun _ => rfl⟩
    | cons c rest ih =>
      intro cds hnz
      have hc : c ≠ 0 := hnz c (List.mem_cons_self c rest)
      cases cds with
      | nil =>
        have hfalse : rmdirIsCurdir (c :: rest) [] = false := by
          simp [rmdirIsCurdir, getByte, hc]
        rw [hfalse]
        simp only [strPre]
        constructor
        · intro h; exact absurd h (by simp)
        · rintro ⟨t, ht⟩; exact absurd ht (by simp)
      | cons d ds =>
        by_cases hcd : c = d
        · subst hcd
          have hstep : rmdirIsCurdir (c :: rest) (c :: ds) = rmdirIsCurdir rest ds := by
            simp [rmdirIsCurdir, getByte, hc]
          rw [hstep, ih ds (fun x hx => hnz x (List.mem_cons_of_mem c hx))]
          simp only [strPre]
          constructor
          · rintro ⟨t, ht⟩; exact ⟨t, by rw [List.cons_append, ht]⟩
          · rintro ⟨t, ht⟩
            rw [List.cons_append] at ht
            exact ⟨t, by injection ht⟩
        · have hfalse : rmdirIsCurdir (c :: rest) (d :: ds) = false := by
            simp [rmdirIsCurdir, getByte, hc, hcd]
          rw [hfalse]
          simp only [strPre]
          constructor
          · intro h; exact absurd h (by simp)
          · rintro ⟨t, ht⟩
            rw [List.cons_append] at ht
            injection ht with h1 h2
            exact absurd h1 hcd
  · intro fn1 cds r0 q stale h
    simp [rmdirOp, h]
  · intro fn1 cds r0 q stale h
    simp [rmdirOp, h]

/-- C9 witness: the amended statement evaluated at `C:\A` against the
non-matching current directory `C:\B`. -/
theorem c9_rmdir_amended_w :
    (rmdirIsCurdir wFn1 wCdsOther = true ↔ strPre wFn1 wCdsOther) ∧
    rmdirOp wFn1 wCdsOther wRegs XR.timeout 0 = mkdirOp wFn1 wRegs XR.timeout 0 :=
  ⟨c9_rmdir_amended.1 wFn1 wCdsOther (by decide),
   c9_rmdir_amended.2.2 wFn1 wCdsOther wRegs XR.timeout 0 (by decide)⟩

/-! ## Claim C7 -/

/-- C7 counterexample.  The claim states that on a transaction timeout
the dispatcher sets the carry flag and reports status 2, except CHDIR
(3), FINDNEXT (18) and FINDFIRST (2).  CLSFIL is a further exception
the claim misses: its case only inspects the status when the exchange
succeeded, so on a timeout it leaves the SUCCESSFLAG prologue intact —
carry clear and AX = 0. -/
theorem c7_timeout_cex :
    (clsfilOp wSft wRegs XR.timeout 7).1.carry = false ∧
    (clsfilOp wSft wRegs XR.timeout 7).1.ax = 0 := by
  refine ⟨by decide, by decide⟩

/-- C7 (amended): on a transaction timeout the dispatcher sets carry
and reports status 2 for RMDIR (non-current path), MKDIR, READFIL,
WRITEFIL, LOCKFIL, DISKSPACE, SETATTR, GETATTR, RENAME, DELETE,
OPEN/CREATE/SPOPNFIL, FINDFIRST and SKFMEND; CHDIR reports 3 and
FINDNEXT reports 18; and CLSFIL reports nothing at all, leaving the
success status from the dispatch prologue. -/
theorem c7_timeout_amended :
    (∀ fn1 cds r0 stale, rmdirIsCurdir fn1 cds = false → 2 ≤ mystrlen fn1 →
      (rmdirOp fn1 cds r0 XR.timeout stale).1 = failflag r0 2) ∧
    (∀ fn1 r0 stale, 2 ≤ mystrlen fn1 →
      (mkdirOp fn1 r0 XR.timeout stale).1 = failflag r0 2) ∧
    (∀ fn1 r0 stale, 2 ≤ mystrlen fn1 →
      (chdirOp fn1 r0 XR.timeout stale).1 = failflag r0 3) ∧
    (∀ sft r0 stale, (clsfilOp sft r0 XR.timeout stale).1 = r0) ∧
    (∀ sft r0 stale, sft.open_mode % 2 = 0 → r0.cx ≠ 0 →
      (readfilOp sft r0 [] stale).1 = failflag r0 2) ∧
    (∀ sft r0 stale, sft.open_mode % 4 ≠ 0 →
      (writefilOp sft r0 [] stale).1 = failflag r0 2) ∧
    (∀ r0 bl stale, bl ≤ 1 → (lockfilOp r0 bl XR.timeout stale).1 = failflag r0 2) ∧
    (∀ r0 stale, (diskspaceOp r0 XR.timeout stale).1 = failflag r0 2) ∧
    (∀ fn1 r0 stale, 2 ≤ mystrlen fn1 →
      (setattrOp fn1 r0 XR.timeout stale).1 = failflag r0 2) ∧
    (∀ fn1 r0 stale, 2 ≤ mystrlen fn1 →
      (getattrOp fn1 r0 XR.timeout stale).1 = failflag r0 2) ∧
    (∀ fn1 fn2 r0 stale, getByte fn1 0 = getByte fn2 0 → 2 ≤ mystrlen fn1 →
      2 ≤ lenIfNoWildcards fn2 → (renameOp fn1 fn2 r0 XR.timeout stale).1 = failflag r0 2) ∧
    (∀ fn1 r0 stale, 2 ≤ mystrlen fn1 →
      (deleteOp fn1 r0 XR.timeout stale).1 = failflag r0 2) ∧
    (∀ sub fn1 drive sft r0 stale, 2 ≤ lenIfNoWildcards fn1 →
      (openOp sub fn1 drive sft r0 XR.timeout stale).1 = failflag r0 2) ∧
    (∀ drive fcb sa dta ff r0 stale,
      (findOp true drive fcb sa dta ff r0 XR.timeout stale).1 = failflag r0 2) ∧
    (∀ drive fcb sa dta ff r0 stale,
      (findOp false drive fcb sa dta ff r0 XR.timeout stale).1 = failflag r0 18) ∧
    (∀ r0 stale, (skfmendOp r0 XR.timeout stale).1 = failflag r0 2) := by
  refine ⟨?_, ?_, ?_, ?_, ?_, ?_, ?_, ?_, ?_, ?_, ?_, ?_, ?_, ?_, ?_, ?_⟩
  · intro fn1 cds r0 stale hcur hlen
    simp [rmdirOp, mkdirOp, hcur, xret, show ¬(mystrlen fn1 < 2) by omega]
  · intro fn1 r0 stale hlen
    simp [mkdirOp, xret, show ¬(mystrlen fn1 < 2) by omega]
  · intro fn1 r0 stale hlen
    simp [chdirOp, xret, show ¬(mystrlen fn1 < 2) by omega]
  · intro sft r0 stale
    simp [clsfilOp, xret]
  · intro sft r0 stale hmode hcx
    simp [readfilOp, readfilLoop, hmode, hcx]
  · intro sft r0 stale hmode
    simp [writefilOp, writefilLoop, hmode]
  · intro r0 bl stale hbl
    simp [lockfilOp, xret, show ¬(1 < bl) by omega]
  · intro r0 stale
    simp [diskspaceOp, xret]
  · intro fn1 r0 stale hlen
    simp [setattrOp, xret, show ¬(mystrlen fn1 < 2) by omega]
  · intro fn1 r0 stale hlen
    simp [getattrOp, xret, show ¬(mystrlen fn1 < 2) by omega]
  · intro fn1 fn2 r0 stale hdrv hlen hlen2
    simp [renameOp, xret, hdrv, show ¬(mystrlen fn1 < 2) by omega,
          show ¬(lenIfNoWildcards fn2 < 2) by omega]
  · intro fn1 r0 stale hlen
    simp [deleteOp, xret, show ¬(mystrlen fn1 < 2) by omega]
  · intro sub fn1 drive sft r0 stale hlen
    simp [openOp, xret, show ¬(lenIfNoWildcards fn1 < 2) by omega]
  · intro drive fcb sa dta ff r0 stale
    simp [findOp, xret]
  · intro drive fcb sa dta ff r0 stale
    simp [findOp, xret]
  · intro r0 stale
    simp [skfmendOp, xret]

/-- C7 witness: the amended statement evaluated on concrete inputs for
every operation. -/
theorem c7_timeout_amended_w :
    (rmdirOp wFn1 wCdsOther wRegs XR.timeout 0).1 = failflag wRegs 2 ∧
    (mkdirOp wFn1 wRegs XR.timeout 0).1 = failflag wRegs 2 ∧
    (chdirOp wFn1 wRegs XR.timeout 0).1 = failflag wRegs 3 ∧
    (clsfilOp wSft wRegs XR.timeout 0).1 = wRegs ∧
    (readfilOp wSft wRegsCx10 [] 0).1 = failflag wRegsCx10 2 ∧
    (writefilOp wSft wRegsCx10 [] 0).1 = failflag wRegsCx10 2 ∧
    (lockfilOp wRegs 0 XR.timeout 0).1 = failflag wRegs 2 ∧
    (diskspaceOp wRegs XR.timeout 0).1 = failflag wRegs 2 ∧
    (setattrOp wFn1 wRegs XR.timeout 0).1 = failflag wRegs 2 ∧
    (getattrOp wFn1 wRegs XR.timeout 0).1 = failflag wRegs 2 ∧
    (renameOp wFn1 wFn1 wRegs XR.timeout 0).1 = failflag wRegs 2 ∧
    (deleteOp wFn1 wRegs XR.timeout 0).1 = failflag wRegs 2 ∧
    (openOp 22 wFn1 3 wSft wRegs XR.timeout 0).1 = failflag wRegs 2 ∧
    (findOp true 3 wFcb 0 wSdb wFF wRegs XR.timeout 0).1 = failflag wRegs 2 ∧
    (findOp false 3 wFcb 0 wSdb wFF wRegs XR.timeout 0).1 = failflag wRegs 18 ∧
    (skfmendOp wRegs XR.timeout 0).1 = failflag wRegs 2 := by
  obtain ⟨h1, h2, h3, h4, h5, h6, h7, h8, h9, h10, h11, h12, h13, h14, h15, h16⟩ :=
    c7_timeout_amended
  exact ⟨h1 wFn1 wCdsOther wRegs 0 (by decide) (by decide),
         h2 wFn1 wRegs 0 (by decide),
         h3 wFn1 wRegs 0 (by decide),
         h4 wSft wRegs 0,
         h5 wSft wRegsCx10 0 (by decide) (by decide),
         h6 wSft wRegsCx10 0 (by decide),
         h7 wRegs 0 0 (by decide),
         h8 wRegs 0,
         h9 wFn1 wRegs 0 (by decide),
         h10 wFn1 wRegs 0 (by decide),
         h11 wFn1 wFn1 wRegs 0 rfl (by decide) (by decide),
         h12 wFn1 wRegs 0 (by decide),
         h13 22 wFn1 3 wSft wRegs 0 (by decide),
         h14 3 wFcb 0 wSdb wFF wRegs 0,
         h15 3 wFcb 0 wSdb wFF wRegs 0,
         h16 wRegs 0⟩

/-! ## Claim C8 -/

/-- C8 counterexample.  The claim states that a path of length exactly
2 is rejected locally without a network exchange.  The local check in
the code is `mystrlen < 2`, so `C:` (length 2) passes it and one
`sendquery` exchange is performed. -/
theorem c8_pathlen2_cex :
    mystrlen [67, 58] = 2 ∧ (mkdirOp [67, 58] wRegs XR.timeout 0).2 = 1 ∧ (1 : Nat) ≠ 0 := by
  refine ⟨by decide, by decide, by decide⟩

/-- C8 (amended): a path of length 0 or 1 is rejected locally with the
configured fallback status and no exchange; a path of length exactly 2
passes the `< 2` check, so its empty remainder is sent to the peer in
one exchange. -/
theorem c8_pathlen_amended :
    (∀ fn1 r0 q stale, mystrlen fn1 < 2 → mkdirOp fn1 r0 q stale = (failflag r0 3, 0)) ∧
    (∀ fn1 r0 q stale, mystrlen fn1 = 2 → (mkdirOp fn1 r0 q stale).2 = 1) ∧
    (∀ fn1 r0 q stale, mystrlen fn1 < 2 → chdirOp fn1 r0 q stale = (failflag r0 3, 0)) ∧
    (∀ fn1 r0 q stale, mystrlen fn1 = 2 → (chdirOp fn1 r0 q stale).2 = 1) ∧
    (∀ fn1 r0 q stale, mystrlen fn1 < 2 → setattrOp fn1 r0 q stale = (failflag r0 2, 0)) ∧
    (∀ fn1 r0 q stale, mystrlen fn1 = 2 → (setattrOp fn1 r0 q stale).2 = 1) ∧
    (∀ fn1 r0 q stale, mystrlen fn1 < 2 → getattrOp fn1 r0 q stale = (failflag r0 2, 0)) ∧
    (∀ fn1 r0 q stale, mystrlen fn1 = 2 → (getattrOp fn1 r0 q stale).2 = 1) ∧
    (∀ fn1 r0 q stale, mystrlen fn1 < 2 → deleteOp fn1 r0 q stale = (failflag r0 2, 0)) ∧
    (∀ fn1 r0 q stale, mystrlen fn1 = 2 → (deleteOp fn1 r0 q stale).2 = 1) ∧
    (∀ fn1 fn2 r0 q stale, getByte fn1 0 = getByte fn2 0 → mystrlen fn1 < 2 →
      renameOp fn1 fn2 r0 q stale = (failflag r0 2, 0)) ∧
    (∀ fn1 fn2 r0 q stale, getByte fn1 0 = getByte fn2 0 → mystrlen fn1 = 2 →
      2 ≤ lenIfNoWildcards fn2 → (renameOp fn1 fn2 r0 q stale).2 = 1) ∧
    (∀ sub fn1 drive sft r0 q stale, lenIfNoWildcards fn1 < 2 →
      openOp sub fn1 drive sft r0 q stale = (failflag r0 3, sft, 0)) ∧
    (∀ sub fn1 drive sft r0 q stale, lenIfNoWildcards fn1 = 2 →
      (openOp sub fn1 drive sft r0 q stale).2.2 = 1) := by
  refine ⟨?_, ?_, ?_, ?_, ?_, ?_, ?_, ?_, ?_, ?_, ?_, ?_, ?_, ?_⟩
  · intro fn1 r0 q stale h; simp [mkdirOp, h]
  · intro fn1 r0 q stale h
    simp only [mkdirOp, h]
    split
    · omega
    · split <;> rfl
  · intro fn1 r0 q stale h; simp [chdirOp, h]
  · intro fn1 r0 q stale h
    simp only [chdirOp, h]
    split
    · omega
    · split <;> rfl
  · intro fn1 r0 q stale h; simp [setattrOp, h]
  · intro fn1 r0 q stale h
    simp only [setattrOp, h]
    split
    · omega
    · split
      · rfl
      · split <;> rfl
  · intro fn1 r0 q stale h; simp [getattrOp, h]
  · intro fn1 r0 q stale h
    simp only [getattrOp, h]
    split
    · omega
    · split
      · rfl
      · split <;> rfl
  · intro fn1 r0 q stale h; simp [deleteOp, h]
  · intro fn1 r0 q stale h
    simp only [deleteOp, h]
    split
    · omega
    · split
      · rfl
      · split <;> rfl
  · intro fn1 fn2 r0 q stale hdrv h
    simp [renameOp, hdrv, h]
  · intro fn1 fn2 r0 q stale hdrv h h2
    simp only [renameOp, hdrv, h]
    rw [if_neg (by simp)]
    rw [if_neg (by omega)]
    rw [if_neg (by omega)]
    split
    · rfl
    · split <;> rfl
  · intro sub fn1 drive sft r0 q stale h
    simp [openOp, h]
  · intro sub fn1 drive sft r0 q stale h
    simp only [openOp, h]
    split
    · omega
    · split
      · rfl
      · split <;> rfl

/-- C8 witness: the amended statement at paths of length 1 and 2. -/
theorem c8_pathlen_amended_w :
    mkdirOp [67] wRegs XR.timeout 0 = (failflag wRegs 3, 0) ∧
    (mkdirOp [67, 58] wRegs XR.timeout 0).2 = 1 ∧
    chdirOp [67] wRegs XR.timeout 0 = (failflag wRegs 3, 0) ∧
    (chdirOp [67, 58] wRegs XR.timeout 0).2 = 1 ∧
    setattrOp [67] wRegs XR.timeout 0 = (failflag wRegs 2, 0) ∧
    (setattrOp [67, 58] wRegs XR.timeout 0).2 = 1 ∧
    getattrOp [67] wRegs XR.timeout 0 = (failflag wRegs 2, 0) ∧
    (getattrOp [67, 58] wRegs XR.timeout 0).2 = 1 ∧
    deleteOp [67] wRegs XR.timeout 0 = (failflag wRegs 2, 0) ∧
    (deleteOp [67, 58] wRegs XR.timeout 0).2 = 1 ∧
    renameOp [67] [67, 58, 65] wRegs XR.timeout 0 = (failflag wRegs 2, 0) ∧
    (renameOp [67, 58] [67, 58, 65] wRegs XR.timeout 0).2 = 1 ∧
    openOp 22 [67] 3 wSft wRegs XR.timeout 0 = (failflag wRegs 3, wSft, 0) ∧
    (openOp 22 [67, 58] 3 wSft wRegs XR.timeout 0).2.2 = 1 := by
  obtain ⟨h1, h2, h3, h4, h5, h6, h7, h8, h9, h10, h11, h12, h13, h14⟩ := c8_pathlen_amended
  exact ⟨h1 [67] wRegs XR.timeout 0 (by decide),
         h2 [67, 58] wRegs XR.timeout 0 (by decide),
         h3 [67] wRegs XR.timeout 0 (by decide),
         h4 [67, 58] wRegs XR.timeout 0 (by decide),
         h5 [67] wRegs XR.timeout 0 (by decide),
         h6 [67, 58] wRegs XR.timeout 0 (by decide),
         h7 [67] wRegs XR.timeout 0 (by decide),
         h8 [67, 58] wRegs XR.timeout 0 (by decide),
         h9 [67] wRegs XR.timeout 0 (by decide),
         h10 [67, 58] wRegs XR.timeout 0 (by decide),
         h11 [67] [67, 58, 65] wRegs XR.timeout 0 (by decide) (by decide),
         h12 [67, 58] [67, 58, 65] wRegs XR.timeout 0 (by decide) (by decide) (by decide),
         h13 22 [67] 3 wSft wRegs XR.timeout 0 (by decide),
         h14 22 [67, 58] 3 wSft wRegs XR.timeout 0 (by decide)⟩

/-! ## Claim C10 -/

/-- C10: a payload that together with the 60-byte header exceeds the
1090-byte transmission buffer makes `sendquery` return 0 with no
transmission, no sequence increment and no assignment of the output
pointers; and 0 is exactly the return value that the MKDIR and CHDIR
cases treat as a successful zero-length reply, so they read the status
through the never-assigned pointer (modelled by the arbitrary `stale`
value) and propagate it.  The transmission buffer size is `FRAMESIZE`
(1090), declared in the globals header and asserted by the source
comments. -/
theorem c10_overlong_query :
    (∀ st query drive bufflen upd ws, 1090 < bufflen + 60 →
      sendquery st query drive bufflen upd ws = ⟨0, 0, st.seq, st.rmac, none, none⟩) ∧
    xret XR.tooLong = 0 ∧
    (∀ fn1 r0 stale, 2 ≤ mystrlen fn1 → r0.carry = false →
      mkdirOp fn1 r0 XR.tooLong stale = ({ r0 with ax := stale, carry := stale != 0 }, 1)) ∧
    (∀ fn1 r0 stale, 2 ≤ mystrlen fn1 → r0.carry = false →
      chdirOp fn1 r0 XR.tooLong stale = ({ r0 with ax := stale, carry := stale != 0 }, 1)) := by
  refine ⟨?_, rfl, ?_, ?_⟩
  · intro st query drive bufflen upd ws h
    simp [sendquery, h]
  · intro fn1 r0 stale hlen hc
    simp [mkdirOp, xret, axOf, hc, show ¬(mystrlen fn1 < 2) by omega]
  · intro fn1 r0 stale hlen hc
    simp [chdirOp, xret, axOf, hc, show ¬(mystrlen fn1 < 2) by omega]

/-- C10 witness: a 2000-byte payload is rejected up front, and MKDIR
then reads the stale status value 7 as if it were the reply status. -/
theorem c10_overlong_query_w :
    sendquery wSt 3 0 2000 false [] = ⟨0, 0, wSt.seq, wSt.rmac, none, none⟩ ∧
    mkdirOp wFn1 wRegs XR.tooLong 7 = ({ wRegs with ax := 7, carry := 7 != 0 }, 1) := by
  obtain ⟨h1, _, h3, _⟩ := c10_overlong_query
  exact ⟨h1 wSt 3 0 2000 false [] (by omega), h3 wFn1 wRegs 7 (by decide) (by decide)⟩

/-! ## Buffer access lemmas -/

lemma getByte_setByte_ne (f : List Nat) (i j v : Nat) (h : i ≠ j) :
    getByte (setByte f i v) j = getByte f j := by
  induction f generalizing i j with
  | nil => simp [getByte, setByte]
  | cons a l ih =>
    cases i with
    | zero =>
      cases j with
      | zero => exact absurd rfl h
      | succ j => simp [getByte, setByte, List.getD_cons_succ]
    | succ i =>
      cases j with
      | zero => simp [getByte, setByte, List.getD_cons_zero]
      | succ j =>
        simp only [getByte, setByte, List.set, List.getD_cons_succ]
        exact ih i j (by omega)

lemma getByte_setByte_eq (f : List Nat) (i v : Nat) (h : i < f.length) :
    getByte (setByte f i v) i = v := by
  induction f generalizing i with
  | nil => simp at h
  | cons a l ih =>
    cases i with
    | zero => simp [getByte, setByte, List.getD_cons_zero]
    | succ i =>
      simp only [getByte, setByte, List.set, List.getD_cons_succ]
      exact ih i (by simpa using h)

lemma length_setByte (f : List Nat) (i v : Nat) : (setByte f i v).length = f.length := by
  simp [setByte]

lemma length_setWord (f : List Nat) (i v : Nat) : (setWord f i v).length = f.length := by
  simp [setWord, setByte]

lemma getWord_setWord (f : List Nat) (i v : Nat) (hi : i + 1 < f.length) (hv : v < 65536) :
    getWord (setWord f i v) i = v := by
  unfold getWord setWord
  rw [getByte_setByte_ne _ (i + 1) i _ (by omega),
      getByte_setByte_eq _ i _ (by omega),
      getByte_setByte_eq _ (i + 1) _ (by rw [length_setByte]; exact hi)]
  omega

lemma byteRange_setByte_low (f : List Nat) (j v a b : Nat) (h : j < a) :
    byteRange (setByte f j v) a b = byteRange f a b := by
  unfold byteRange
  apply List.map_congr_left
  intro i _
  exact getByte_setByte_ne _ _ _ _ (by omega)

lemma bsdsum_lt (l : List Nat) : bsdsum l < 65536 := by
  have h : ∀ acc, acc < 65536 →
      List.foldl (fun acc b => (ror16 acc + b) % 65536) acc l < 65536 := by
    induction l with
    | nil => intro acc hacc; simpa using hacc
    | cons b rest ih =>
      intro acc _
      simp only [List.foldl]
      exact ih _ (Nat.mod_lt _ (by omega))
  exact h 0 (by omega)

/-! ## Transaction engine lemmas -/

lemma frameOK_elim {st : QState} {upd : Bool} {f : List Nat} (h : frameOK st upd f = true) :
    60 ≤ f.length ∧ (∀ i < 6, getByte f i = getByte st.lmac i) ∧
    (upd = false → ∀ i < 6, getByte f (i + 6) = getByte st.rmac i) ∧
    getWord f 12 = 62957 ∧ getByte f 57 = st.seq ∧
    getWord f 52 ≤ f.length ∧ 60 ≤ getWord f 52 := by
  simp only [frameOK, macOK, Bool.and_eq_true, List.all_eq_true, List.mem_range,
    Bool.or_eq_true, beq_iff_eq, decide_eq_true_eq] at h
  obtain ⟨⟨⟨⟨⟨⟨h1, h2⟩, h3⟩, h4⟩, h5⟩, h6⟩, -⟩ := h
  refine ⟨h1, fun i hi => ((h2 i hi).1), ?_, h3, h4, h5, h6⟩
  intro hupd i hi
  rcases (h2 i hi).2 with hbad | hgood
  · rw [hupd] at hbad; exact absurd hbad (by simp)
  · exact hgood

lemma scanWindow_some {st : QState} {upd : Bool} :
    ∀ {ws : List (List Nat)} {f : List Nat},
      scanWindow st upd ws = some f → frameOK st upd f = true := by
  intro ws
  induction ws with
  | nil => intro f h; simp [scanWindow] at h
  | cons w rest ih =>
    intro f h
    by_cases hw : frameOK st upd w
    · simp only [scanWindow, hw, if_true] at h
      injection h with h
      rw [← h]; exact hw
    · simp only [scanWindow, hw, if_false] at h
      exact ih h

lemma scanWindow_none {st : QState} {upd : Bool} :
    ∀ {w : List (List Nat)},
      (∀ f ∈ w, frameOK st upd f = false) → scanWindow st upd w = none := by
  intro w
  induction w with
  | nil => intro _; rfl
  | cons g rest ih =>
    intro h
    have hg := h g (List.mem_cons_self g rest)
    simp only [scanWindow, hg, Bool.false_eq_true, if_false]
    exact ih (fun f hf => h f (List.mem_cons_of_mem g hf))

lemma runAttempts_accepted {st : QState} {upd : Bool} :
    ∀ {n : Nat} {ws : List (List (List Nat))} {tx : Nat} {f : List Nat},
      (runAttempts st upd n ws tx).accepted = some f →
      frameOK st upd f = true ∧
      (runAttempts st upd n ws tx).rmacAfter = (if upd then byteRange f 6 12 else st.rmac) := by
  intro n
  induction n with
  | zero => intro ws tx f h; simp [runAttempts] at h
  | succ n ih =>
    intro ws tx f h
    unfold runAttempts at h ⊢
    cases hs : scanWindow st upd (ws.headD []) with
    | some g =>
      rw [hs] at h
      have h' : some g = some f := h
      injection h' with h'
      subst h'
      exact ⟨scanWindow_some hs, rfl⟩
    | none =>
      rw [hs] at h
      exact ih h

lemma runAttempts_tx {st : QState} {upd : Bool} :
    ∀ (n : Nat) (ws : List (List (List Nat))) (tx : Nat),
      (runAttempts st upd n ws tx).transmits ≤ tx + n := by
  intro n
  induction n with
  | zero => intro ws tx; simp [runAttempts]
  | succ n ih =>
    intro ws tx
    unfold runAttempts
    cases hs : scanWindow st upd (ws.headD []) with
    | some g => exact show tx + 1 ≤ tx + (n + 1) by omega
    | none => exact le_trans (ih ws.tail (tx + 1)) (by omega)

lemma runAttempts_bad {st : QState} {upd : Bool} :
    ∀ (n : Nat) (ws : List (List (List Nat))) (tx : Nat),
      (∀ w ∈ ws.take n, ∀ f ∈ w, frameOK st upd f = false) →
      runAttempts st upd n ws tx = ⟨65535, tx + n, st.seq, st.rmac, none, none⟩ := by
  intro n
  induction n with
  | zero => intro ws tx _; simp [runAttempts]
  | succ n ih =>
    intro ws tx h
    have hnone : scanWindow st upd (ws.headD []) = none := by
      cases ws with
      | nil => rfl
      | cons w rest =>
        exact @scanWindow_none st upd w (fun f hf => h w (by simp) f hf)
    have ht : ∀ w ∈ ws.tail.take n, ∀ f ∈ w, frameOK st upd f = false := by
      intro w hw f hf
      cases ws with
      | nil => simp at hw
      | cons w0 rest =>
        exact h w (by simp only [List.take]; exact List.mem_cons_of_mem w0 hw) f hf
    unfold runAttempts
    rw [hnone]
    have hres := ih ws.tail (tx + 1) ht
    rw [show tx + 1 + n = tx + (n + 1) from by omega] at hres
    exact hres

lemma runAttempts_cons_bad {st : QState} {upd : Bool} {f : List Nat}
    (hbad : frameOK st upd f = false) :
    ∀ (n : Nat) (w : List (List Nat)) (ws : List (List (List Nat))) (tx : Nat),
      runAttempts st upd n ((f :: w) :: ws) tx = runAttempts st upd n (w :: ws) tx := by
  intro n
  cases n with
  | zero => intro w ws tx; rfl
  | succ n =>
    intro w ws tx
    unfold runAttempts
    simp only [List.headD_cons, List.tail_cons]
    rw [show scanWindow st upd (f :: w) = scanWindow st upd w from by
      simp [scanWindow, hbad]]

/-! ## Claim C1 -/

/-- C1: every reply accepted by `sendquery` has destination MAC equal
to the local MAC, ethertype 0xF5ED, sequence byte equal to the
outstanding request sequence, and a length field between 60 and the
observed frame length; the source MAC equals the stored peer MAC unless
the learn-peer flag was set for the exchange, in which case the source
MAC is accepted and copied into the peer MAC before returning. -/
theorem c1_accepted_reply_valid (st : QState) (query drive bufflen : Nat) (upd : Bool)
    (ws : List (List (List Nat))) (f : List Nat)
    (h : (sendquery st query drive bufflen upd ws).accepted = some f) :
    (∀ i < 6, getByte f i = getByte st.lmac i) ∧
    getWord f 12 = 62957 ∧
    getByte f 57 = (st.seq + 1) % 256 ∧
    60 ≤ getWord f 52 ∧ getWord f 52 ≤ f.length ∧
    (upd = false → ∀ i < 6, getByte f (i + 6) = getByte st.rmac i) ∧
    (upd = true → (sendquery st query drive bufflen upd ws).rmacAfter = byteRange f 6 12) := by
  by_cases hbig : 1090 < bufflen + 60
  · unfold sendquery at h
    rw [if_pos hbig] at h
    simp at h
  · unfold sendquery at h ⊢
    rw [if_neg hbig] at h ⊢
    obtain ⟨hok, hrm⟩ := runAttempts_accepted h
    obtain ⟨-, hlmac, hrmac, heth, hseq, hle, hge⟩ := frameOK_elim hok
    refine ⟨hlmac, heth, hseq, hge, hle, hrmac, ?_⟩
    intro hupd
    rw [hrm, if_pos hupd]

/-- C1 witness: a concrete transaction whose single window holds a
valid reply frame. -/
theorem c1_accepted_reply_valid_w :
    (∀ i < 6, getByte wFrame i = getByte wSt.lmac i) ∧
    getWord wFrame 12 = 62957 ∧
    getByte wFrame 57 = (wSt.seq + 1) % 256 ∧
    60 ≤ getWord wFrame 52 ∧ getWord wFrame 52 ≤ wFrame.length ∧
    (false = false → ∀ i < 6, getByte wFrame (i + 6) = getByte wSt.rmac i) ∧
    (false = true → (sendquery wSt 12 2 0 false [[wFrame]]).rmacAfter = byteRange wFrame 6 12) :=
  c1_accepted_reply_valid wSt 12 2 0 false [[wFrame]] wFrame (by decide)

/-! ## Claim C2 -/

/-- C2: a transaction transmits the request at most five times, and
when no frame arriving within the five windows validates, `sendquery`
transmits exactly five times and returns the timeout error 0xFFFF. -/
theorem c2_retry_bound_timeout :
    (∀ (st : QState) (query drive bufflen : Nat) (upd : Bool) ws,
      (sendquery st query drive bufflen upd ws).transmits ≤ 5) ∧
    (∀ (st : QState) (query drive bufflen : Nat) (upd : Bool) ws,
      bufflen + 60 ≤ 1090 →
      (∀ w ∈ ws.take 5, ∀ f ∈ w, frameOK (sendState st query drive bufflen) upd f = false) →
      (sendquery st query drive bufflen upd ws).ret = 65535 ∧
      (sendquery st query drive bufflen upd ws).transmits = 5) := by
  constructor
  · intro st q d b upd ws
    unfold sendquery
    split
    · simp
    · have := @runAttempts_tx (sendState st q d b) upd 5 ws 0
      omega
  · intro st q d b upd ws hlen hbad
    unfold sendquery
    rw [if_neg (by omega), runAttempts_bad 5 ws 0 hbad]
    exact ⟨rfl, rfl⟩

/-- C2 witness: a window trace holding only one invalid (all-zero)
frame makes the concrete transaction transmit five times and fail. -/
theorem c2_retry_bound_timeout_w :
    (sendquery wSt 3 0 0 false [[zFrame]]).ret = 65535 ∧
    (sendquery wSt 3 0 0 false [[zFrame]]).transmits = 5 :=
  c2_retry_bound_timeout.2 wSt 3 0 0 false [[zFrame]] (by omega) (by decide)

/-! ## Claim C4 -/

/-- C4: the checksum algorithm rotates the 16-bit accumulator right by
one position and adds each byte; the built request frame stores the
checksum of bytes 56 .. flen-1 at offsets 54..55 whenever the checksum
flag (bit 7 of byte 56) is on; a reply whose computed checksum differs
from its checksum field fails validation; and dropping a failed frame
keeps the transaction inside the same attempt, continuing with the
remaining frames of the window. -/
theorem c4_checksum :
    (∀ (l : List Nat) (b : Nat), bsdsum (l ++ [b]) = (ror16 (bsdsum l) + b) % 65536) ∧
    (∀ (buf : List Nat) (flen seq drive query : Nat),
      bit7 (getByte buf 56) = true → 56 ≤ buf.length →
      getWord (buildSnd buf flen seq drive query) 54 =
        bsdsum (byteRange (buildSnd buf flen seq drive query) 56 flen)) ∧
    (∀ (st : QState) (upd : Bool) (f : List Nat),
      bit7 (getByte st.sndbuff 56) = true →
      bsdsum (byteRange f 56 (getWord f 52)) ≠ getWord f 54 →
      frameOK st upd f = false) ∧
    (∀ (st : QState) (query drive bufflen : Nat) (upd : Bool)
       (f : List Nat) (w : List (List Nat)) (ws : List (List (List Nat))),
      frameOK (sendState st query drive bufflen) upd f = false →
      sendquery st query drive bufflen upd ((f :: w) :: ws) =
        sendquery st query drive bufflen upd (w :: ws)) := by
  refine ⟨?_, ?_, ?_, ?_⟩
  · intro l b
    unfold bsdsum
    rw [List.foldl_append]
    rfl
  · intro buf flen s d q hbit hlen
    unfold buildSnd
    have h56 : getByte (setByte (setByte (setByte (setWord buf 52 flen) 57 s) 58 d) 59 q) 56
        = getByte buf 56 := by
      rw [getByte_setByte_ne _ 59 56 _ (by omega), getByte_setByte_ne _ 58 56 _ (by omega),
          getByte_setByte_ne _ 57 56 _ (by omega)]
      unfold setWord
      rw [getByte_setByte_ne _ 53 56 _ (by omega), getByte_setByte_ne _ 52 56 _ (by omega)]
    simp only [h56, hbit, if_true]
    have hb1len : (setByte (setByte (setByte (setWord buf 52 flen) 57 s) 58 d) 59 q).length
        = buf.length := by
      rw [length_setByte, length_setByte, length_setByte, length_setWord]
    unfold setWord
    rw [byteRange_setByte_low _ 55 _ _ _ (by omega), byteRange_setByte_low _ 54 _ _ _ (by omega)]
    have := getWord_setWord (setByte (setByte (setByte (setWord buf 52 flen) 57 s) 58 d) 59 q)
      54 (bsdsum (byteRange (setByte (setByte (setByte (setWord buf 52 flen) 57 s) 58 d) 59 q)
        56 flen)) (by omega) (bsdsum_lt _)
    unfold setWord at this
    exact this
  · intro st upd f hbit hne
    simp only [frameOK, hbit, Bool.not_true, Bool.false_or]
    rw [show (bsdsum (byteRange f 56 (getWord f 52)) == getWord f 54) = false from by
      simpa using hne]
    simp
  · intro st q d b upd f w ws hbad
    unfold sendquery
    split
    · rfl
    · exact runAttempts_cons_bad hbad 5 w ws 0

/-! ## Claim C5 -/

lemma readfilLoop_nil (r0 : Regs) (sft : SFT) (stale tot copied ex : Nat) :
    readfilLoop r0 sft stale tot copied ex [] = (failflag r0 2, sft, ex + 1, copied) := rfl

lemma readfilLoop_timeout (r0 : Regs) (sft : SFT) (stale tot copied ex : Nat) (rest : List XR) :
    readfilLoop r0 sft stale tot copied ex (XR.timeout :: rest) =
      (failflag r0 2, sft, ex + 1, copied) := rfl

lemma readfilLoop_tooLong_err (r0 : Regs) (sft : SFT) (stale tot copied ex : Nat)
    (rest : List XR) (hst : stale ≠ 0) :
    readfilLoop r0 sft stale tot copied ex (XR.tooLong :: rest) =
      (failflag r0 stale, sft, ex + 1, copied) := by
  simp only [readfilLoop, xret, axOf]
  rw [if_neg (by simp), if_pos (by simp [hst])]

lemma readfilLoop_tooLong_stop (r0 : Regs) (sft : SFT) (tot copied ex : Nat)
    (rest : List XR)
    (hstop : (0 : Int) < chunkOf r0.cx tot ∨ tot % 65536 = r0.cx) :
    readfilLoop r0 sft 0 tot copied ex (XR.tooLong :: rest) =
      ({ r0 with cx := (tot + 0) % 65536 },
       { sft with file_pos := (sft.file_pos + (tot + 0) % 65536) % 4294967296 },
       ex + 1, copied + 0) := by
  simp only [readfilLoop, xret, axOf]
  rw [if_neg (by simp), if_neg (by simp), if_pos (by
    simp only [Bool.or_eq_true, decide_eq_true_eq, beq_iff_eq]
    rcases hstop with h | h
    · exact Or.inl (by exact_mod_cast h)
    · exact Or.inr (by omega))]

lemma readfilLoop_reply_err (r0 : Regs) (sft : SFT) (stale tot copied ex : Nat)
    (p : List Nat) (a : Nat) (rest : List XR) (ha : a ≠ 0) (hlen : p.length ≠ 65535) :
    readfilLoop r0 sft stale tot copied ex (XR.reply p a :: rest) =
      (failflag r0 a, sft, ex + 1, copied) := by
  simp only [readfilLoop, xret, axOf]
  rw [if_neg (by simp [hlen]), if_pos (by simp [ha])]

lemma readfilLoop_reply_stop (r0 : Regs) (sft : SFT) (stale tot copied ex : Nat)
    (p : List Nat) (rest : List XR) (hlen : p.length ≠ 65535)
    (hstop : (p.length : Int) < chunkOf r0.cx tot ∨ (tot + p.length) % 65536 = r0.cx) :
    readfilLoop r0 sft stale tot copied ex (XR.reply p 0 :: rest) =
      ({ r0 with cx := (tot + p.length) % 65536 },
       { sft with file_pos := (sft.file_pos + (tot + p.length) % 65536) % 4294967296 },
       ex + 1, copied + p.length) := by
  simp only [readfilLoop, xret, axOf]
  rw [if_neg (by simp [hlen]), if_neg (by simp), if_pos (by
    simp only [Bool.or_eq_true, decide_eq_true_eq, beq_iff_eq]
    exact hstop)]

lemma readfilLoop_reply_go (r0 : Regs) (sft : SFT) (stale tot copied ex : Nat)
    (p : List Nat) (rest : List XR) (hlen : p.length ≠ 65535)
    (hgo : ¬((p.length : Int) < chunkOf r0.cx tot ∨ (tot + p.length) % 65536 = r0.cx)) :
    readfilLoop r0 sft stale tot copied ex (XR.reply p 0 :: rest) =
      readfilLoop r0 sft stale ((tot + p.length) % 65536) (copied + p.length) (ex + 1) rest := by
  simp only [readfilLoop, xret, axOf]
  rw [if_neg (by simp [hlen]), if_neg (by simp), if_neg (by
    simp only [Bool.or_eq_true, decide_eq_true_eq, beq_iff_eq]
    exact hgo)]

lemma readfilLoop_inv (r0 : Regs) (sft : SFT) (stale : Nat)
    (hcx : r0.cx < 65536) :
    ∀ (trace : List XR) (tot ex : Nat), tot ≤ r0.cx → lensFit r0.cx tot trace →
      (readfilLoop r0 sft stale tot tot ex trace).2.2.2 ≤ r0.cx ∧
      ((readfilLoop r0 sft stale tot tot ex trace).1.carry = false →
        (readfilLoop r0 sft stale tot tot ex trace).2.1.file_pos =
          (sft.file_pos + (readfilLoop r0 sft stale tot tot ex trace).2.2.2) % 4294967296 ∧
        (readfilLoop r0 sft stale tot tot ex trace).1.cx =
          (readfilLoop r0 sft stale tot tot ex trace).2.2.2) := by
  intro trace
  induction trace with
  | nil =>
    intro tot ex htot _
    rw [readfilLoop_nil]
    exact ⟨htot, fun hc => absurd hc (by simp [failflag])⟩
  | cons q rest ih =>
    intro tot ex htot hfit
    cases q with
    | timeout =>
      rw [readfilLoop_timeout]
      exact ⟨htot, fun hc => absurd hc (by simp [failflag])⟩
    | tooLong =>
      by_cases hst : stale = 0
      · subst hst
        have hstop : (0 : Int) < chunkOf r0.cx tot ∨ tot % 65536 = r0.cx := by
          rcases Nat.lt_or_ge tot r0.cx with h | h
          · left
            unfold chunkOf
            split <;> omega
          · right
            have : tot = r0.cx := le_antisymm htot h
            omega
        rw [readfilLoop_tooLong_stop r0 sft tot tot ex rest hstop]
        have hmod : tot % 65536 = tot := Nat.mod_eq_of_lt (by omega)
        refine ⟨by simpa using htot, fun _ => ⟨?_, ?_⟩⟩
        · simp [hmod]
        · simp [hmod]
      · rw [readfilLoop_tooLong_err r0 sft stale tot tot ex rest hst]
        exact ⟨htot, fun hc => absurd hc (by simp [failflag])⟩
    | reply p a =>
      obtain ⟨hplen, hrest⟩ := hfit
      have hbounds : p.length ≤ r0.cx - tot ∧ p.length ≤ 1030 := Nat.le_min.mp hplen
      have hl65535 : p.length ≠ 65535 := by omega
      by_cases ha : a = 0
      · subst ha
        have hfit' := hrest rfl
        have htoteq : (tot + p.length) % 65536 = tot + p.length :=
          Nat.mod_eq_of_lt (by omega)
        by_cases hstop : (p.length : Int) < chunkOf r0.cx tot ∨ (tot + p.length) % 65536 = r0.cx
        · rw [readfilLoop_reply_stop r0 sft stale tot tot ex p rest hl65535 hstop]
          refine ⟨?_, fun _ => ⟨?_, ?_⟩⟩
          · simp
            omega
          · simp [htoteq]
          · simp [htoteq]
        · rw [readfilLoop_reply_go r0 sft stale tot tot ex p rest hl65535 hstop]
          rw [htoteq]
          exact ih (tot + p.length) (ex + 1) (by omega) hfit'
      · rw [readfilLoop_reply_err r0 sft stale tot tot ex p a rest ha hl65535]
        exact ⟨htot, fun hc => absurd hc (by simp [failflag])⟩

/-- C5 counterexample.  The claim states the READFIL loop never copies
more bytes to the DTA than the CX request and advances the file
position by exactly the number of bytes delivered.  Nothing in the code
bounds a reply by the requested chunk length: with CX = 10, a validated
reply carrying 1030 bytes is copied wholesale into the DTA (1030 > 10);
the loop then continues, times out, and fails with status 2 having
advanced the file position by zero. -/
theorem c5_readfil_cex :
    (readfilOp wSft wRegsCx10 [XR.reply (List.replicate 1030 0) 0] 0).2.2.2 = 1030 ∧
    wRegsCx10.cx = 10 ∧
    ¬((readfilOp wSft wRegsCx10 [XR.reply (List.replicate 1030 0) 0] 0).2.2.2 ≤ wRegsCx10.cx) ∧
    (readfilOp wSft wRegsCx10 [XR.reply (List.replicate 1030 0) 0] 0).2.1.file_pos =
      wSft.file_pos := by
  refine ⟨by decide, by decide, by decide, by decide⟩

/-- C5 (amended): provided every successful reply is no longer than the
chunk requested at its step, the READFIL loop copies at most CX bytes
into the DTA; when it finishes without error (carry still clear), the
file position has advanced by exactly the copied count and CX holds
that count; and a successful reply shorter than its requested chunk
always ends the loop at once, regardless of later traffic. -/
theorem c5_readfil_amended :
    (∀ (sft : SFT) (r0 : Regs) (trace : List XR) (stale : Nat),
      r0.cx < 65536 → sft.file_pos < 4294967296 → r0.carry = false →
      lensFit r0.cx 0 trace →
      (readfilOp sft r0 trace stale).2.2.2 ≤ r0.cx ∧
      ((readfilOp sft r0 trace stale).1.carry = false →
        (readfilOp sft r0 trace stale).2.1.file_pos =
          (sft.file_pos + (readfilOp sft r0 trace stale).2.2.2) % 4294967296 ∧
        (readfilOp sft r0 trace stale).1.cx = (readfilOp sft r0 trace stale).2.2.2)) ∧
    (∀ (r0 : Regs) (sft : SFT) (stale tot copied ex : Nat) (p : List Nat) (rest : List XR),
      p.length ≠ 65535 → (p.length : Int) < chunkOf r0.cx tot →
      readfilLoop r0 sft stale tot copied ex (XR.reply p 0 :: rest) =
        readfilLoop r0 sft stale tot copied ex [XR.reply p 0]) := by
  constructor
  · intro sft r0 trace stale hcx hpos hcarry hfit
    unfold readfilOp
    split
    · exact ⟨by simp, fun hc => absurd hc (by simp [failflag])⟩
    · split
      · rename_i hcx0
        have h0 : r0.cx = 0 := by simpa using hcx0
        refine ⟨by simp, fun _ => ⟨by simp [Nat.mod_eq_of_lt hpos], by simp [h0]⟩⟩
      · exact readfilLoop_inv r0 sft stale hcx trace 0 0 (by omega) hfit
  · intro r0 sft stale tot copied ex p rest hlen hshort
    rw [readfilLoop_reply_stop r0 sft stale tot copied ex p rest hlen (Or.inl hshort),
        readfilLoop_reply_stop r0 sft stale tot copied ex p [] hlen (Or.inl hshort)]

/-- C5 witness: the amended statement at a concrete short-reply run
(CX = 10, one reply of two bytes) and a concrete short-stop step. -/
theorem c5_readfil_amended_w :
    ((readfilOp wSft wRegsCx10 [XR.reply [7, 7] 0] 0).2.2.2 ≤ wRegsCx10.cx ∧
      ((readfilOp wSft wRegsCx10 [XR.reply [7, 7] 0] 0).1.carry = false →
        (readfilOp wSft wRegsCx10 [XR.reply [7, 7] 0] 0).2.1.file_pos =
          (wSft.file_pos + (readfilOp wSft wRegsCx10 [XR.reply [7, 7] 0] 0).2.2.2) % 4294967296 ∧
        (readfilOp wSft wRegsCx10 [XR.reply [7, 7] 0] 0).1.cx =
          (readfilOp wSft wRegsCx10 [XR.reply [7, 7] 0] 0).2.2.2)) ∧
    readfilLoop wRegsCx10 wSft 0 0 0 0 [XR.reply [7, 7] 0, XR.timeout] =
      readfilLoop wRegsCx10 wSft 0 0 0 0 [XR.reply [7, 7] 0] := by
  constructor
  · exact c5_readfil_amended.1 wSft wRegsCx10 [XR.reply [7, 7] 0] 0 (by decide) (by decide)
      (by decide) ⟨by decide, fun _ => trivial⟩
  · exact c5_readfil_amended.2 wRegsCx10 wSft 0 0 0 0 [7, 7] [XR.timeout] (by decide) (by decide)

/-- C4 witness: the recurrence at a two-byte list, the checksum store
on the checksum-enabled buffer, the rejection of `wFrame` (whose
checksum field does not match) under the checksum-enabled state, and
the discard of an invalid frame from a window. -/
theorem c4_checksum_w :
    bsdsum ([1, 2] ++ [3]) = (ror16 (bsdsum [1, 2]) + 3) % 65536 ∧
    getWord (buildSnd wSndCk 60 1 3 12) 54 =
      bsdsum (byteRange (buildSnd wSndCk 60 1 3 12) 56 60) ∧
    frameOK wStCk false wFrame = false ∧
    sendquery wSt 3 0 0 false [[zFrame]] = sendquery wSt 3 0 0 false [[]] := by
  obtain ⟨h1, h2, h3, h4⟩ := c4_checksum
  exact ⟨h1 [1, 2] 3,
         h2 wSndCk 60 1 3 12 (by decide) (by decide),
         h3 wStCk false wFrame (by decide) (by decide),
         h4 wSt 3 0 0 false zFrame [] [] (by decide)⟩

/-! ## Claim C6 -/

lemma writefilLoop_nil (stale : Nat) (r : Regs) (sft : SFT) (bl w ex sw sc : Nat) :
    writefilLoop stale r sft bl w ex sw sc [] = (failflag r 2, sft, ex + 1, sw, sc) := rfl

lemma writefilLoop_timeout (stale : Nat) (r : Regs) (sft : SFT) (bl w ex sw sc : Nat)
    (rest : List XR) :
    writefilLoop stale r sft bl w ex sw sc (XR.timeout :: rest) =
      (failflag r 2, sft, ex + 1, sw, sc) := rfl

lemma writefilLoop_tooLong (stale : Nat) (r : Regs) (sft : SFT) (bl w ex sw sc : Nat)
    (rest : List XR) :
    writefilLoop stale r sft bl w ex sw sc (XR.tooLong :: rest) =
      (failflag r stale, sft, ex + 1, sw, sc) := by
  simp only [writefilLoop, xret, axOf]
  rw [if_neg (by simp), if_pos (by simp)]

lemma writefilLoop_reply_neterr (stale : Nat) (r : Regs) (sft : SFT) (bl w ex sw sc : Nat)
    (p : List Nat) (a : Nat) (rest : List XR) (hp : p.length = 65535) :
    writefilLoop stale r sft bl w ex sw sc (XR.reply p a :: rest) =
      (failflag r 2, sft, ex + 1, sw, sc) := by
  simp only [writefilLoop, xret, axOf]
  rw [if_pos (by simp [hp])]

lemma writefilLoop_reply_err (stale : Nat) (r : Regs) (sft : SFT) (bl w ex sw sc : Nat)
    (p : List Nat) (a : Nat) (rest : List XR)
    (herr : a ≠ 0 ∨ p.length ≠ 2) (hp : p.length ≠ 65535) :
    writefilLoop stale r sft bl w ex sw sc (XR.reply p a :: rest) =
      (failflag r a, sft, ex + 1, sw, sc) := by
  simp only [writefilLoop, xret, axOf]
  rw [if_neg (by simp [hp]), if_pos (by
    simp only [Bool.or_eq_true, bne_iff_ne, ne_eq]
    tauto)]

lemma writefilLoop_reply_stop (stale : Nat) (r : Regs) (sft : SFT) (bl w ex sw sc : Nat)
    (p : List Nat) (rest : List XR) (h2 : p.length = 2)
    (hstop : getWord p 0 ≠ min bl 1024 ∨ (bl + 65536 - getWord p 0 % 65536) % 65536 = 0) :
    writefilLoop stale r sft bl w ex sw sc (XR.reply p 0 :: rest) =
      ({ r with cx := (w + getWord p 0) % 65536 }, wfSftUpd sft (getWord p 0),
       ex + 1, sw + getWord p 0, sc + 1) := by
  simp only [writefilLoop, xret, axOf, payloadOf]
  rw [if_neg (by simp [h2]), if_neg (by simp [h2])]
  rcases hstop with h | h
  · rw [if_pos (by simpa using h)]
  · by_cases hc : getWord p 0 = min bl 1024
    · rw [if_neg (by simpa using hc), if_neg (by omega)]
    · rw [if_pos (by simpa using hc)]

lemma writefilLoop_reply_go (stale : Nat) (r : Regs) (sft : SFT) (bl w ex sw sc : Nat)
    (p : List Nat) (rest : List XR) (h2 : p.length = 2)
    (hc : getWord p 0 = min bl 1024)
    (hbl : 0 < (bl + 65536 - getWord p 0 % 65536) % 65536) :
    writefilLoop stale r sft bl w ex sw sc (XR.reply p 0 :: rest) =
      writefilLoop stale { r with cx := (w + getWord p 0) % 65536 } (wfSftUpd sft (getWord p 0))
        ((bl + 65536 - getWord p 0 % 65536) % 65536) ((w + getWord p 0) % 65536)
        (ex + 1) (sw + getWord p 0) (sc + 1) rest := by
  simp only [writefilLoop, xret, axOf, payloadOf]
  rw [if_neg (by simp [h2]), if_neg (by simp [h2]), if_neg (by simpa using hc), if_pos hbl]

lemma writefilLoop_ex1 (stale : Nat) :
    ∀ (trace : List XR) (r : Regs) (sft : SFT) (bl w ex sw sc : Nat),
      ex + 1 ≤ (writefilLoop stale r sft bl w ex sw sc trace).2.2.1 := by
  intro trace
  induction trace with
  | nil => intro r sft bl w ex sw sc; rw [writefilLoop_nil]
  | cons q rest ih =>
    intro r sft bl w ex sw sc
    cases q with
    | timeout => rw [writefilLoop_timeout]
    | tooLong => rw [writefilLoop_tooLong]
    | reply p a =>
      by_cases hp : p.length = 65535
      · rw [writefilLoop_reply_neterr stale r sft bl w ex sw sc p a rest hp]
      · by_cases herr : a ≠ 0 ∨ p.length ≠ 2
        · rw [writefilLoop_reply_err stale r sft bl w ex sw sc p a rest herr hp]
        · push_neg at herr
          obtain ⟨ha, h2⟩ := herr
          subst ha
          by_cases hstop : getWord p 0 ≠ min bl 1024 ∨
              (bl + 65536 - getWord p 0 % 65536) % 65536 = 0
          · rw [writefilLoop_reply_stop stale r sft bl w ex sw sc p rest h2 hstop]
          · push_neg at hstop
            obtain ⟨hc, hbl⟩ := hstop
            rw [writefilLoop_reply_go stale r sft bl w ex sw sc p rest h2 hc
              (Nat.pos_of_ne_zero hbl)]
            exact le_trans (by omega) (ih _ _ _ _ (ex + 1) _ _)

lemma writefilLoop_inv (stale : Nat) :
    ∀ (trace : List XR) (r : Regs) (sft : SFT) (bl w ex sw sc : Nat)
      (rr : Regs) (ss : SFT) (exr swr scr : Nat),
      sft.file_pos < 4294967296 →
      writefilLoop stale r sft bl w ex sw sc trace = (rr, ss, exr, swr, scr) →
      sw ≤ swr ∧ sc ≤ scr ∧
      ss.file_pos = (sft.file_pos + (swr - sw)) % 4294967296 ∧
      (scr = sc → ss = sft ∧ rr.cx = r.cx ∧ swr = sw) ∧
      (sc < scr → rr.cx = (w + (swr - sw)) % 65536) ∧
      (sc < scr → sft.file_pos + (swr - sw) < 4294967296 →
        ss.file_size = max sft.file_size ss.file_pos) := by
  intro trace
  induction trace with
  | nil =>
    intro r sft bl w ex sw sc rr ss exr swr scr hpos heq
    rw [writefilLoop_nil] at heq
    simp only [Prod.mk.injEq] at heq
    obtain ⟨h1, h2, h3, h4, h5⟩ := heq
    subst h1; subst h2; subst h3; subst h4; subst h5
    refine ⟨le_refl _, le_refl _, ?_, fun _ => ⟨rfl, rfl, rfl⟩,
      fun h => absurd h (by omega), fun h => absurd h (by omega)⟩
    rw [Nat.sub_self, Nat.add_zero, Nat.mod_eq_of_lt hpos]
  | cons q rest ih =>
    intro r sft bl w ex sw sc rr ss exr swr scr hpos heq
    cases q with
    | timeout =>
      rw [writefilLoop_timeout] at heq
      simp only [Prod.mk.injEq] at heq
      obtain ⟨h1, h2, h3, h4, h5⟩ := heq
      subst h1; subst h2; subst h3; subst h4; subst h5
      refine ⟨le_refl _, le_refl _, ?_, fun _ => ⟨rfl, rfl, rfl⟩,
        fun h => absurd h (by omega), fun h => absurd h (by omega)⟩
      rw [Nat.sub_self, Nat.add_zero, Nat.mod_eq_of_lt hpos]
    | tooLong =>
      rw [writefilLoop_tooLong] at heq
      simp only [Prod.mk.injEq] at heq
      obtain ⟨h1, h2, h3, h4, h5⟩ := heq
      subst h1; subst h2; subst h3; subst h4; subst h5
      refine ⟨le_refl _, le_refl _, ?_, fun _ => ⟨rfl, rfl, rfl⟩,
        fun h => absurd h (by omega), fun h => absurd h (by omega)⟩
      rw [Nat.sub_self, Nat.add_zero, Nat.mod_eq_of_lt hpos]
    | reply p a =>
      by_cases hp : p.length = 65535
      · rw [writefilLoop_reply_neterr stale r sft bl w ex sw sc p a rest hp] at heq
        simp only [Prod.mk.injEq] at heq
        obtain ⟨h1, h2, h3, h4, h5⟩ := heq
        subst h1; subst h2; subst h3; subst h4; subst h5
        refine ⟨le_refl _, le_refl _, ?_, fun _ => ⟨rfl, rfl, rfl⟩,
          fun h => absurd h (by omega), fun h => absurd h (by omega)⟩
        rw [Nat.sub_self, Nat.add_zero, Nat.mod_eq_of_lt hpos]
      · by_cases herr : a ≠ 0 ∨ p.length ≠ 2
        · rw [writefilLoop_reply_err stale r sft bl w ex sw sc p a rest herr hp] at heq
          simp only [Prod.mk.injEq] at heq
          obtain ⟨h1, h2, h3, h4, h5⟩ := heq
          subst h1; subst h2; subst h3; subst h4; subst h5
          refine ⟨le_refl _, le_refl _, ?_, fun _ => ⟨rfl, rfl, rfl⟩,
            fun h => absurd h (by omega), fun h => absurd h (by omega)⟩
          rw [Nat.sub_self, Nat.add_zero, Nat.mod_eq_of_lt hpos]
        · push_neg at herr
          obtain ⟨ha, h2⟩ := herr
          subst ha
          have hposu : (wfSftUpd sft (getWord p 0)).file_pos =
              (sft.file_pos + getWord p 0) % 4294967296 := rfl
          have hposu_lt : (wfSftUpd sft (getWord p 0)).file_pos < 4294967296 := by
            rw [hposu]; exact Nat.mod_lt _ (by omega)
          by_cases hstop : getWord p 0 ≠ min bl 1024 ∨
              (bl + 65536 - getWord p 0 % 65536) % 65536 = 0
          · rw [writefilLoop_reply_stop stale r sft bl w ex sw sc p rest h2 hstop] at heq
            simp only [Prod.mk.injEq] at heq
            obtain ⟨h1, h2', h3, h4, h5⟩ := heq
            subst h1; subst h2'; subst h3; subst h4; subst h5
            have hd : sw + getWord p 0 - sw = getWord p 0 := by omega
            refine ⟨by omega, by omega, ?_, fun h => absurd h (by omega), fun _ => ?_,
              fun _ hnw => ?_⟩
            · rw [hd, hposu]
            · rw [hd]
            · rw [hd] at hnw
              have hposu_eq : (wfSftUpd sft (getWord p 0)).file_pos =
                  sft.file_pos + getWord p 0 := by
                rw [hposu]; exact Nat.mod_eq_of_lt hnw
              have hsize_eq : (wfSftUpd sft (getWord p 0)).file_size =
                  max sft.file_size (sft.file_pos + getWord p 0) := by
                show (if sft.file_size < (sft.file_pos + getWord p 0) % 4294967296
                  then (sft.file_pos + getWord p 0) % 4294967296 else sft.file_size) = _
                rw [Nat.mod_eq_of_lt hnw]
                rcases Nat.lt_or_ge sft.file_size (sft.file_pos + getWord p 0) with h | h
                · rw [if_pos h]; omega
                · rw [if_neg (by omega)]; omega
              rw [hsize_eq, hposu_eq]
          · push_neg at hstop
            obtain ⟨hc, hbl0⟩ := hstop
            rw [writefilLoop_reply_go stale r sft bl w ex sw sc p rest h2 hc
              (Nat.pos_of_ne_zero hbl0)] at heq
            obtain ⟨ih1, ih2, ih3, ih4, ih5, ih6⟩ := ih _ _ _ _ (ex + 1) _ _ rr ss exr swr scr
              hposu_lt heq
            refine ⟨by omega, by omega, ?_, fun h => absurd h (by omega), fun _ => ?_,
              fun _ hnw => ?_⟩
            · rw [ih3, hposu, Nat.mod_add_mod]
              congr 1
              omega
            · rcases Nat.eq_or_lt_of_le ih2 with hsc | hsc
              · obtain ⟨-, hcx, hsw⟩ := ih4 hsc.symm
                rw [hcx]
                show (w + getWord p 0) % 65536 = (w + (swr - sw)) % 65536
                congr 2
                omega
              · rw [ih5 hsc]
                omega
            · have hgle : getWord p 0 ≤ swr - sw := by omega
              have hnw2 : sft.file_pos + getWord p 0 < 4294967296 := by omega
              have hposu_eq : (wfSftUpd sft (getWord p 0)).file_pos =
                  sft.file_pos + getWord p 0 := by
                rw [hposu]; exact Nat.mod_eq_of_lt hnw2
              have hsize_eq : (wfSftUpd sft (getWord p 0)).file_size =
                  max sft.file_size (sft.file_pos + getWord p 0) := by
                show (if sft.file_size < (sft.file_pos + getWord p 0) % 4294967296
                  then (sft.file_pos + getWord p 0) % 4294967296 else sft.file_size) = _
                rw [Nat.mod_eq_of_lt hnw2]
                rcases Nat.lt_or_ge sft.file_size (sft.file_pos + getWord p 0) with h | h
                · rw [if_pos h]; omega
                · rw [if_neg (by omega)]; omega
              have hsspos : ss.file_pos = sft.file_pos + (swr - sw) := by
                rw [ih3, hposu_eq, Nat.mod_eq_of_lt (by omega)]
                omega
              rcases Nat.eq_or_lt_of_le ih2 with hsc | hsc
              · obtain ⟨hss, -, -⟩ := ih4 hsc.symm
                rw [hss, hsize_eq, hposu_eq]
              · have h6 := ih6 hsc (by rw [hposu_eq]; omega)
                rw [h6, hsize_eq, hsspos]
                omega

/-- C6: WRITEFIL performs at least one exchange even for a zero-byte
request; the file position always advances by exactly the total of the
peer-reported written counts; after at least one successful exchange CX
holds the cumulative written count; the file size ends at the maximum
of its initial value and the final position (no overflow assumed); and
a success reporting fewer bytes than the chunk sent stops the loop at
once, regardless of later traffic. -/
theorem c6_writefil :
    (∀ (sft : SFT) (r0 : Regs) (trace : List XR) (stale : Nat),
      sft.open_mode % 4 ≠ 0 → 1 ≤ (writefilOp sft r0 trace stale).2.2.1) ∧
    (∀ (sft : SFT) (r0 : Regs) (trace : List XR) (stale : Nat),
      sft.open_mode % 4 ≠ 0 → sft.file_pos < 4294967296 →
      (writefilOp sft r0 trace stale).2.1.file_pos =
        (sft.file_pos + (writefilOp sft r0 trace stale).2.2.2.1) % 4294967296) ∧
    (∀ (sft : SFT) (r0 : Regs) (trace : List XR) (stale : Nat),
      sft.open_mode % 4 ≠ 0 → sft.file_pos < 4294967296 →
      0 < (writefilOp sft r0 trace stale).2.2.2.2 →
      (writefilOp sft r0 trace stale).1.cx = (writefilOp sft r0 trace stale).2.2.2.1 % 65536) ∧
    (∀ (sft : SFT) (r0 : Regs) (trace : List XR) (stale : Nat),
      sft.open_mode % 4 ≠ 0 → sft.file_pos < 4294967296 →
      0 < (writefilOp sft r0 trace stale).2.2.2.2 →
      sft.file_pos + (writefilOp sft r0 trace stale).2.2.2.1 < 4294967296 →
      (writefilOp sft r0 trace stale).2.1.file_size =
        max sft.file_size (writefilOp sft r0 trace stale).2.1.file_pos) ∧
    (∀ (stale : Nat) (r : Regs) (sft : SFT) (bl w ex sw sc : Nat)
       (p : List Nat) (rest : List XR),
      p.length = 2 → getWord p 0 < min bl 1024 →
      writefilLoop stale r sft bl w ex sw sc (XR.reply p 0 :: rest) =
        writefilLoop stale r sft bl w ex sw sc [XR.reply p 0]) := by
  refine ⟨?_, ?_, ?_, ?_, ?_⟩
  · intro sft r0 trace stale hmode
    unfold writefilOp
    rw [if_neg (by simpa using hmode)]
    exact writefilLoop_ex1 stale trace r0 sft r0.cx 0 0 0 0
  · intro sft r0 trace stale hmode hpos
    unfold writefilOp
    rw [if_neg (by simpa using hmode)]
    rcases hval : writefilLoop stale r0 sft r0.cx 0 0 0 0 trace with ⟨rr, ss, exr, swr, scr⟩
    obtain ⟨-, -, h3, -, -, -⟩ := writefilLoop_inv stale trace r0 sft r0.cx 0 0 0 0
      rr ss exr swr scr hpos hval
    simpa using h3
  · intro sft r0 trace stale hmode hpos hsucc
    unfold writefilOp at hsucc ⊢
    rw [if_neg (by simpa using hmode)] at hsucc ⊢
    rcases hval : writefilLoop stale r0 sft r0.cx 0 0 0 0 trace with ⟨rr, ss, exr, swr, scr⟩
    rw [hval] at hsucc
    obtain ⟨-, -, -, -, h5, -⟩ := writefilLoop_inv stale trace r0 sft r0.cx 0 0 0 0
      rr ss exr swr scr hpos hval
    simpa using h5 (by simpa using hsucc)
  · intro sft r0 trace stale hmode hpos hsucc hnw
    unfold writefilOp at hsucc hnw ⊢
    rw [if_neg (by simpa using hmode)] at hsucc hnw ⊢
    rcases hval : writefilLoop stale r0 sft r0.cx 0 0 0 0 trace with ⟨rr, ss, exr, swr, scr⟩
    rw [hval] at hsucc hnw
    obtain ⟨-, -, -, -, -, h6⟩ := writefilLoop_inv stale trace r0 sft r0.cx 0 0 0 0
      rr ss exr swr scr hpos hval
    simpa using h6 (by simpa using hsucc) (by simpa using hnw)
  · intro stale r sft bl w ex sw sc p rest h2 hshort
    rw [writefilLoop_reply_stop stale r sft bl w ex sw sc p rest h2 (Or.inl (by omega)),
        writefilLoop_reply_stop stale r sft bl w ex sw sc p [] h2 (Or.inl (by omega))]

/-- C6 witness: a concrete partial write (CX = 10, one reply reporting
4 bytes written) exercising every conjunct. -/
theorem c6_writefil_w :
    1 ≤ (writefilOp wSft wRegsCx10 [XR.reply [4, 0] 0] 0).2.2.1 ∧
    (writefilOp wSft wRegsCx10 [XR.reply [4, 0] 0] 0).2.1.file_pos =
      (wSft.file_pos + (writefilOp wSft wRegsCx10 [XR.reply [4, 0] 0] 0).2.2.2.1) %
        4294967296 ∧
    (writefilOp wSft wRegsCx10 [XR.reply [4, 0] 0] 0).1.cx =
      (writefilOp wSft wRegsCx10 [XR.reply [4, 0] 0] 0).2.2.2.1 % 65536 ∧
    (writefilOp wSft wRegsCx10 [XR.reply [4, 0] 0] 0).2.1.file_size =
      max wSft.file_size (writefilOp wSft wRegsCx10 [XR.reply [4, 0] 0] 0).2.1.file_pos ∧
    writefilLoop 0 wRegsCx10 wSft 10 0 0 0 0 [XR.reply [4, 0] 0, XR.timeout] =
      writefilLoop 0 wRegsCx10 wSft 10 0 0 0 0 [XR.reply [4, 0] 0] := by
  obtain ⟨h1, h2, h3, h4, h5⟩ := c6_writefil
  exact ⟨h1 wSft wRegsCx10 [XR.reply [4, 0] 0] 0 (by decide),
         h2 wSft wRegsCx10 [XR.reply [4, 0] 0] 0 (by decide) (by decide),
         h3 wSft wRegsCx10 [XR.reply [4, 0] 0] 0 (by decide) (by decide) (by decide),
         h4 wSft wRegsCx10 [XR.reply [4, 0] 0] 0 (by decide) (by decide) (by decide) (by decide),
         h5 0 wRegsCx10 wSft 10 0 0 0 0 [4, 0] [XR.timeout] (by decide) (by decide)⟩

end EtherDFS
